import Mathlib

/-! # bf-dns: a shallow embedding of `bf-dns.go`

The responder answers DNS queries for a control zone, a set of correct zones and a
family of flip aliases.  The embedding follows the source function by function:
`createReply`, `logQuestion`, `FlipServer`, `ControlServer`, `UnflippedServer`,
`UnknownServer` and the startup code of `main`.

Conventions of the model.

* A Go `string` is a Lean `String`, read as a sequence of one-byte characters
  (`len` is `String.length`).  Every separator the source uses (`"."`, `"@"`) is one byte.
* `uint8`, `uint16` and `uint32` values are natural numbers; the source only compares
  them with constants and stores constants, so no arithmetic can overflow.
* A Go panic is the `Outcome.panic` result; it carries the state reached when the
  panic was raised, so what was logged and written before it stays observable.
* The log sink and the transport are lists inside `World`: `logEncoder.Encode`
  appends to `World.log`, `w.WriteMsg` appends to `World.sent`.
-/

namespace BfDns

/-! ## Go standard library: the string functions the source calls -/

/-- Split a character sequence at every occurrence of `sep`; the result is never empty. -/
def splitChars (sep : Char) : List Char → List (List Char)
  | [] => [[]]
  | c :: cs =>
    if c = sep then [] :: splitChars sep cs
    else (c :: (splitChars sep cs).headD []) :: (splitChars sep cs).tail

/-- Concatenate the parts, putting `sep` between consecutive ones. -/
def joinChars (sep : List Char) : List (List Char) → List Char
  | [] => []
  | [p] => p
  | p :: q :: ps => p ++ sep ++ joinChars sep (q :: ps)

/-- Go `strings.Split(s, sep)` for a separator of one character, which is how every call
in the source uses it (`"."`). -/
def Split (s : String) (sep : Char) : List String :=
  (splitChars sep s.data).map String.mk

/-- Go `strings.Join(parts, sep)`. -/
def Join (parts : List String) (sep : String) : String :=
  String.mk (joinChars sep.data (parts.map String.data))

/-- Go `strings.Replace(s, old, new, -1)` for one-character `old` and `new`: every
occurrence is replaced. -/
def Replace (s : String) (old new : Char) : String :=
  String.mk (s.data.map fun c => if c = old then new else c)

/-- Go slice expression `s[lo:hi]` on a string; `none` is the run-time panic
"slice bounds out of range".  The bounds are Go `int`s, hence integers here. -/
def sliceString (s : String) (lo hi : Int) : Option String :=
  if 0 ≤ lo ∧ lo ≤ hi ∧ hi ≤ (s.length : Int) then
    some (String.mk ((s.data.drop lo.toNat).take (hi.toNat - lo.toNat)))
  else none

/-- Go slice expression `a[lo:hi]` on a slice of strings (capacity equal to length). -/
def sliceParts (a : List String) (lo hi : Int) : Option (List String) :=
  if 0 ≤ lo ∧ lo ≤ hi ∧ hi ≤ (a.length : Int) then
    some ((a.drop lo.toNat).take (hi.toNat - lo.toNat))
  else none

/-- Go index assignment `a[i] = v`; `none` is the panic "index out of range". -/
def setPart (a : List String) (i : Int) (v : String) : Option (List String) :=
  if 0 ≤ i ∧ i < (a.length : Int) then some (a.set i.toNat v) else none

/-- A Go `map[string]string`, newest binding first. -/
abbrev GoMap := List (String × String)

/-- Go `m[k] = v`. -/
def GoMap.set (m : GoMap) (k v : String) : GoMap := (k, v) :: m

/-- Go `m[k]`: the zero value `""` when the key is absent. -/
def GoMap.get (m : GoMap) (k : String) : String :=
  match m.lookup k with
  | some v => v
  | none => ""

/-- The keys bound in the map. -/
def GoMap.keys (m : GoMap) : List String := m.map Prod.fst

/-- The result of `net.ParseIP`: the model records the text handed to the parser. -/
structure IP where
  text : String
  deriving DecidableEq, Repr

/-- Go `net.ParseIP(s)`. -/
def ParseIP (s : String) : IP := IP.mk s

/-! ## Data model: `ConfigStruct`, DNS messages, log entries -/

/-- One element of `ConfigStruct.Binds`. -/
structure Bind where
  Address : String
  Port : String
  deriving DecidableEq, Repr

/-- The `{A, AAAA}` pair of address literals of `ConfigStruct.Answers`. -/
structure AnswerPair where
  A : String
  AAAA : String
  deriving DecidableEq, Repr

/-- The field `Answers` of `ConfigStruct`. -/
structure AnswersStruct where
  Flipped : AnswerPair
  Correct : AnswerPair
  deriving DecidableEq, Repr

/-- The format of the config file (`ConfigStruct`).  `Questions` is a Go map from a correct
zone to its flip aliases; the list holds its entries in the order `range` visits them. -/
structure ConfigStruct where
  Binds : List Bind
  Log : String
  Control : String
  Contact : String
  Questions : List (String × List String)
  Answers : AnswersStruct
  deriving DecidableEq, Repr

/-- The question section entry `dns.Question`. -/
structure Question where
  Name : String
  Qtype : Nat
  Qclass : Nat
  deriving DecidableEq, Repr

/-- The record header `dns.RR_Header` (the fields the source sets). -/
structure RR_Header where
  Name : String
  Rrtype : Nat
  Class : Nat
  Ttl : Nat
  deriving DecidableEq, Repr

def TypeA : Nat := 1
def TypeNS : Nat := 2
def TypeSOA : Nat := 6
def TypeMX : Nat := 15
def TypeTXT : Nat := 16
def TypeAAAA : Nat := 28
def ClassINET : Nat := 1

/-- The resource records the source builds: `dns.A`, `dns.NS`, `dns.SOA`, `dns.MX`,
`dns.AAAA` and `dns.TXT`. -/
inductive RR where
  | A (Hdr : RR_Header) (A : IP)
  | NS (Hdr : RR_Header) (Ns : String)
  | SOA (Hdr : RR_Header) (Ns Mbox : String) (Serial Refresh Retry Expire Minttl : Nat)
  | MX (Hdr : RR_Header) (Preference : Nat) (Mx : String)
  | AAAA (Hdr : RR_Header) (AAAA : IP)
  | TXT (Hdr : RR_Header) (Txt : List String)
  deriving DecidableEq, Repr

/-- The header of a record. -/
def RR.Hdr : RR → RR_Header
  | .A h _ => h
  | .NS h _ => h
  | .SOA h _ _ _ _ _ _ _ => h
  | .MX h _ _ => h
  | .AAAA h _ => h
  | .TXT h _ => h

/-- The message `dns.Msg`: the header fields `Id`, `Response`, `Rcode`, the `Compress`
flag and the four sections. -/
structure Msg where
  Id : Nat
  Response : Bool
  Rcode : Nat
  Compress : Bool
  Question : List Question
  Answer : List RR
  Ns : List RR
  Extra : List RR
  deriving DecidableEq, Repr

/-- The format of a log (`LogEntry`); `Type_` is the field `Type` of the source. -/
structure LogEntry where
  Timestamp : String
  Type_ : Nat
  Destination : String
  Source : String
  Port : String
  QName : String
  QType : Nat
  QClass : Nat
  deriving DecidableEq, Repr

/-- What a handler observes of `dns.ResponseWriter`: for the local and the remote
address, the result of `net.SplitHostPort` on its text, a (host, port) pair, or `none`
when that call reports an error. -/
structure ResponseWriter where
  LocalAddr : Option (String × String)
  RemoteAddr : Option (String × String)
  deriving DecidableEq, Repr

/-- The process state a handler reads and changes: `now` is `time.Now()` in the layout
`2006-01-02T15:04:05`, `log` the entries encoded to the log file so far, `sent` the
messages written to the transport so far. -/
structure World where
  now : String
  log : List LogEntry
  sent : List Msg
  deriving DecidableEq, Repr

/-- How a piece of handler code ends: normally, or with a Go panic; either way with the
state reached. -/
inductive Outcome where
  | done (σ : World)
  | panic (σ : World)
  deriving DecidableEq, Repr

/-- The state an outcome ends in. -/
def Outcome.world : Outcome → World
  | .done σ => σ
  | .panic σ => σ

/-- The global variables of the program after startup: `Config` and `flippedDomains`. -/
structure Globals where
  Config : ConfigStruct
  flippedDomains : GoMap
  deriving DecidableEq, Repr

/-! ## `createReply` and `logQuestion` -/

/-- The library call `m.SetReply(req)` on a fresh message: the reply takes the id of the
request, is marked as a response with `Rcode` success, and gets a question section of
exactly the first question of the request.  `none` stands for a request without
question, on which `createReply` panics (in `SetReply` or at `m.Question[0]`). -/
def SetReply (req : Msg) : Option Msg :=
  match req.Question with
  | [] => none
  | q :: _ =>
    some { Id := req.Id, Response := true, Rcode := 0, Compress := false,
           Question := [q], Answer := [], Ns := [], Extra := [] }

/-- The text of the disclaimer record. -/
def disclaimer (g : Globals) : String :=
  "This server is part of an InfoSec project. You can find more information on " ++
    g.Config.Control

/-- Makes a reply msg given a request (`createReply`). -/
def createReply (g : Globals) (req : Msg) : Option Msg :=
  match SetReply req with
  | none => none
  | some m =>
    match m.Question with
    | [] => none
    | q :: _ =>
      some { m with
        Compress := true,
        Extra := [RR.TXT { Name := q.Name, Rrtype := TypeTXT, Class := ClassINET, Ttl := 604800 }
                    [disclaimer g]] }

/-- Logs the query to the log file (`logQuestion`). -/
def logQuestion (w : ResponseWriter) (req : Msg) (queryType : Nat) (σ : World) : Outcome :=
  match w.LocalAddr with
  | none => .panic σ
  | some (localAddress, _) =>
    match w.RemoteAddr with
    | none => .panic σ
    | some (remoteAddress, remotePort) =>
      match req.Question with
      | [] => .panic σ
      | q :: _ =>
        .done { σ with log := σ.log ++ [{
          Timestamp := σ.now,
          Type_ := queryType,
          Destination := localAddress,
          Source := remoteAddress,
          Port := remotePort,
          QName := q.Name,
          QType := q.Qtype,
          QClass := q.Qclass }] }

/-- The call `w.WriteMsg(m)`; the source ignores its result. -/
def WriteMsg (m : Msg) (σ : World) : Outcome :=
  .done { σ with sent := σ.sent ++ [m] }

/-- Sequencing: run `k` from the state `o` ended in, unless `o` is a panic. -/
def Outcome.andThen : Outcome → (World → Outcome) → Outcome
  | .done σ, k => k σ
  | .panic σ, _ => .panic σ

/-- Continue with the value of a step that may panic; the panic leaves the state `σ`. -/
def orPanic {α : Type} (x : Option α) (σ : World) (k : α → Outcome) : Outcome :=
  match x with
  | some a => k a
  | none => .panic σ

/-- The Go expression `s[1:len(s)-1]`. -/
def stripEnds (s : String) : Option String :=
  sliceString s 1 ((s.length : Int) - 1)

/-! ## `FlipServer` -/

/-- The first "Make a reply" block of `FlipServer` (lines 129-208), acting on `m1`. -/
def FlipServer.fill1 (g : Globals) (m1 : Msg) : Option Msg :=
  match m1.Question with
  | [] => none
  | q :: _ =>
    if q.Qclass = 1 then
      if q.Qtype = 1 then
        some { m1 with Answer :=
          [RR.A ⟨q.Name, TypeA, ClassINET, 1⟩ (ParseIP g.Config.Answers.Flipped.A)] }
      else if q.Qtype = 2 then
        some { m1 with Answer :=
          [RR.NS ⟨q.Name, TypeNS, ClassINET, 604800⟩ ("ns1." ++ g.Config.Control ++ "."),
           RR.NS ⟨q.Name, TypeNS, ClassINET, 604800⟩ ("ns2." ++ g.Config.Control ++ ".")] }
      else if q.Qtype = 6 then
        some { m1 with Answer :=
          [RR.SOA ⟨q.Name, TypeSOA, ClassINET, 604800⟩ ("ns1." ++ g.Config.Control ++ ".")
            (g.Config.Contact ++ ".") 1 28800 7200 604800 60] }
      else if q.Qtype = 15 then
        some { m1 with Answer :=
          [RR.MX ⟨q.Name, TypeMX, ClassINET, 604800⟩ 1 ("mx." ++ g.Config.Control ++ ".")] }
      else if q.Qtype = 28 then
        match stripEnds g.Config.Answers.Flipped.AAAA with
        | none => none
        | some flipped =>
          some { m1 with Answer := [RR.AAAA ⟨q.Name, TypeAAAA, ClassINET, 1⟩ (ParseIP flipped)] }
      else some m1
    else some m1

/-- The name rewrite of `FlipServer` (lines 216-223) on the name of the question:
split on dots, replace the part at `len-3` by the table entry for the parts
`[len-3, len-1)` joined by a dot, join again.  `none` is the out-of-range panic. -/
def FlipServer.hostRewrite (flippedDomains : GoMap) (name : String) : Option String :=
  let host_parts := Split name '.'
  let n : Int := host_parts.length
  match sliceParts host_parts (n - 3) (n - 1) with
  | none => none
  | some segment =>
    match setPart host_parts (n - 3) (flippedDomains.get (Join segment ".")) with
    | none => none
    | some host_parts => some (Join host_parts ".")

/-- Lines 216-223 of `FlipServer` acting on `m2`: the question name is rewritten. -/
def FlipServer.rename (g : Globals) (m2 : Msg) : Option Msg :=
  match m2.Question with
  | [] => none
  | q :: qs =>
    match FlipServer.hostRewrite g.flippedDomains q.Name with
    | none => none
    | some name => some { m2 with Question := { q with Name := name } :: qs }

/-- The second "Make a reply" block of `FlipServer` (lines 225-304), acting on `m2`. -/
def FlipServer.fill2 (g : Globals) (m2 : Msg) : Option Msg :=
  match m2.Question with
  | [] => none
  | q :: _ =>
    if q.Qclass = 1 then
      if q.Qtype = 1 then
        some { m2 with Answer :=
          [RR.A ⟨q.Name, TypeA, ClassINET, 1⟩ (ParseIP g.Config.Answers.Flipped.A)] }
      else if q.Qtype = 2 then
        some { m2 with Answer :=
          [RR.NS ⟨q.Name, TypeNS, ClassINET, 604800⟩ ("ns1." ++ g.Config.Control ++ "."),
           RR.NS ⟨q.Name, TypeNS, ClassINET, 604800⟩ ("ns2." ++ g.Config.Control ++ ".")] }
      else if q.Qtype = 6 then
        some { m2 with Answer :=
          [RR.SOA ⟨q.Name, TypeSOA, ClassINET, 604800⟩ ("ns1." ++ g.Config.Control ++ ".")
            (g.Config.Contact ++ ".") 1 28800 7200 604800 60] }
      else if q.Qtype = 15 then
        some { m2 with Answer :=
          [RR.MX ⟨q.Name, TypeMX, ClassINET, 604800⟩ 1 ("mx." ++ g.Config.Control ++ ".")] }
      else if q.Qtype = 28 then
        match stripEnds g.Config.Answers.Correct.AAAA with
        | none => none
        | some correct =>
          some { m2 with Answer := [RR.AAAA ⟨q.Name, TypeAAAA, ClassINET, 1⟩ (ParseIP correct)] }
      else some m2
    else some m2

/-- Answers flipped requests (`FlipServer`): log with type 3, build and write the reply
for the name as asked, then build a second reply, rewrite its question name, fill it
and write it. -/
def FlipServer (g : Globals) (w : ResponseWriter) (req : Msg) (σ : World) : Outcome :=
  (logQuestion w req 3 σ).andThen fun σ =>
  orPanic (createReply g req) σ fun m1 =>
  orPanic (FlipServer.fill1 g m1) σ fun m1 =>
  (WriteMsg m1 σ).andThen fun σ =>
  orPanic (createReply g req) σ fun m2 =>
  orPanic (FlipServer.rename g m2) σ fun m2 =>
  orPanic (FlipServer.fill2 g m2) σ fun m2 =>
  WriteMsg m2 σ

/-! ## `ControlServer` -/

/-- The "Make a reply" block of `ControlServer` (lines 320-457). -/
def ControlServer.fill (g : Globals) (m : Msg) : Option Msg :=
  match m.Question with
  | [] => none
  | q :: _ =>
    if q.Qclass = 1 then
      if q.Qtype = 1 then
        some { m with
          Answer :=
            [RR.A ⟨q.Name, TypeA, ClassINET, 604800⟩ (ParseIP g.Config.Answers.Correct.A),
             RR.A ⟨q.Name, TypeA, ClassINET, 604800⟩ (ParseIP g.Config.Answers.Flipped.A)],
          Ns :=
            [RR.NS ⟨q.Name, TypeNS, ClassINET, 604800⟩ ("ns1." ++ g.Config.Control ++ "."),
             RR.NS ⟨q.Name, TypeNS, ClassINET, 604800⟩ ("ns2." ++ g.Config.Control ++ ".")] }
      else if q.Qtype = 2 then
        some { m with Answer :=
          [RR.NS ⟨q.Name, TypeNS, ClassINET, 604800⟩ ("ns1." ++ g.Config.Control ++ "."),
           RR.NS ⟨q.Name, TypeNS, ClassINET, 604800⟩ ("ns2." ++ g.Config.Control ++ ".")] }
      else if q.Qtype = 6 then
        some { m with Answer :=
          [RR.SOA ⟨q.Name, TypeSOA, ClassINET, 604800⟩ ("ns1." ++ g.Config.Control ++ ".")
            (g.Config.Contact ++ ".") 1 28800 7200 604800 60] }
      else if q.Qtype = 15 then
        some { m with Answer :=
          [RR.MX ⟨q.Name, TypeMX, ClassINET, 604800⟩ 1 ("mx." ++ g.Config.Control ++ ".")] }
      else if q.Qtype = 28 then
        match stripEnds g.Config.Answers.Correct.AAAA with
        | none => none
        | some correct =>
          match stripEnds g.Config.Answers.Flipped.AAAA with
          | none => none
          | some flipped =>
            some { m with
              Answer :=
                [RR.AAAA ⟨q.Name, TypeAAAA, ClassINET, 604800⟩ (ParseIP correct),
                 RR.AAAA ⟨q.Name, TypeAAAA, ClassINET, 604800⟩ (ParseIP flipped)],
              Ns :=
                [RR.NS ⟨q.Name, TypeNS, ClassINET, 604800⟩ ("ns1." ++ g.Config.Control ++ "."),
                 RR.NS ⟨q.Name, TypeNS, ClassINET, 604800⟩ ("ns2." ++ g.Config.Control ++ ".")] }
      else some m
    else some m

/-- Answers control domain requests (`ControlServer`). -/
def ControlServer (g : Globals) (w : ResponseWriter) (req : Msg) (σ : World) : Outcome :=
  (logQuestion w req 1 σ).andThen fun σ =>
  orPanic (createReply g req) σ fun m =>
  orPanic (ControlServer.fill g m) σ fun m =>
  WriteMsg m σ

/-! ## `UnflippedServer` -/

/-- The "Make a reply" block of `UnflippedServer` (lines 473-570). -/
def UnflippedServer.fill (g : Globals) (m : Msg) : Option Msg :=
  match m.Question with
  | [] => none
  | q :: _ =>
    if q.Qclass = 1 then
      if q.Qtype = 1 then
        some { m with Answer :=
          [RR.A ⟨q.Name, TypeA, ClassINET, 1⟩ (ParseIP g.Config.Answers.Correct.A),
           RR.A ⟨q.Name, TypeA, ClassINET, 1⟩ (ParseIP g.Config.Answers.Flipped.A)] }
      else if q.Qtype = 2 then
        some { m with Answer :=
          [RR.NS ⟨q.Name, TypeNS, ClassINET, 604800⟩ ("ns1." ++ g.Config.Control ++ "."),
           RR.NS ⟨q.Name, TypeNS, ClassINET, 604800⟩ ("ns2." ++ g.Config.Control ++ ".")] }
      else if q.Qtype = 6 then
        some { m with Answer :=
          [RR.SOA ⟨q.Name, TypeSOA, ClassINET, 604800⟩ ("ns1." ++ g.Config.Control ++ ".")
            (g.Config.Contact ++ ".") 1 28800 7200 604800 60] }
      else if q.Qtype = 15 then
        some { m with Answer :=
          [RR.MX ⟨q.Name, TypeMX, ClassINET, 1⟩ 1 ("mx." ++ g.Config.Control ++ ".")] }
      else if q.Qtype = 28 then
        match stripEnds g.Config.Answers.Correct.AAAA with
        | none => none
        | some correct =>
          match stripEnds g.Config.Answers.Flipped.AAAA with
          | none => none
          | some flipped =>
            some { m with Answer :=
              [RR.AAAA ⟨q.Name, TypeAAAA, ClassINET, 1⟩ (ParseIP correct),
               RR.AAAA ⟨q.Name, TypeAAAA, ClassINET, 1⟩ (ParseIP flipped)] }
      else some m
    else some m

/-- Answers unflipped domain requests (`UnflippedServer`). -/
def UnflippedServer (g : Globals) (w : ResponseWriter) (req : Msg) (σ : World) : Outcome :=
  (logQuestion w req 2 σ).andThen fun σ =>
  orPanic (createReply g req) σ fun m =>
  orPanic (UnflippedServer.fill g m) σ fun m =>
  WriteMsg m σ

/-! ## `UnknownServer` -/

/-- Answers unknown domain requests (`UnknownServer`): the reply is refused. -/
def UnknownServer (g : Globals) (w : ResponseWriter) (req : Msg) (σ : World) : Outcome :=
  (logQuestion w req 0 σ).andThen fun σ =>
  orPanic (createReply g req) σ fun m =>
  WriteMsg { m with Rcode := 5 } σ

/-! ## `main`: startup -/

/-- The four handler functions the mux can hold. -/
inductive Handler where
  | UnknownServer
  | ControlServer
  | UnflippedServer
  | FlipServer
  deriving DecidableEq, Repr

/-- Run the handler function a `Handler` value stands for. -/
def Handler.run : Handler → Globals → ResponseWriter → Msg → World → Outcome
  | .UnknownServer => BfDns.UnknownServer
  | .ControlServer => BfDns.ControlServer
  | .UnflippedServer => BfDns.UnflippedServer
  | .FlipServer => BfDns.FlipServer

/-- The classification code a handler passes to `logQuestion`. -/
def Handler.code : Handler → Nat
  | .UnknownServer => 0
  | .ControlServer => 1
  | .UnflippedServer => 2
  | .FlipServer => 3

/-- Modelled from the spec: the zone table of the dispatcher (`dns.ServeMux` of the DNS
library, not part of the source), a map from a fully-qualified zone name to a handler,
newest registration first. -/
abbrev ServeMux := List (String × Handler)

/-- Modelled from the spec: zone names are normalized to fully-qualified form, that is,
a name not ending in a dot gets one appended. -/
def Fqdn (s : String) : String :=
  if s.data.getLast? = some '.' then s else s ++ "."

/-- Modelled from the spec: `mux.HandleFunc(pattern, handler)` registers the handler
under the normalized pattern; a later registration of the same zone wins. -/
def HandleFunc (mux : ServeMux) (pattern : String) (handler : Handler) : ServeMux :=
  (Fqdn pattern, handler) :: mux

/-- The loop `for _, flip := range flips` of `main` for one correct zone. -/
def main.flipLoop (correct : String) (flips : List String) (st : GoMap × ServeMux) :
    GoMap × ServeMux :=
  flips.foldl (fun st flip =>
    (st.1.set flip ((Split correct '.').headD ""), HandleFunc st.2 flip Handler.FlipServer)) st

/-- The loop `for correct, flips := range Config.Questions` of `main`. -/
def main.questionLoop (questions : List (String × List String)) (st : GoMap × ServeMux) :
    GoMap × ServeMux :=
  questions.foldl (fun st entry =>
    main.flipLoop entry.1 entry.2 (st.1, HandleFunc st.2 entry.1 Handler.UnflippedServer)) st

/-- The startup part of `main` from the parsed config on: the contact rewrite, the
handler registrations and the construction of `flippedDomains`.  `strings.Split(correct,
".")[0]` is the head of a list that is never empty. -/
def main (parsed : ConfigStruct) : Globals × ServeMux :=
  let Config := { parsed with Contact := Replace parsed.Contact '@' '.' }
  let mux := HandleFunc [] "." Handler.UnknownServer
  let mux := HandleFunc mux Config.Control Handler.ControlServer
  let st := main.questionLoop Config.Questions ([], mux)
  ({ Config := Config, flippedDomains := st.1 }, st.2)

/-! ## Sample inputs -/

/-- A configuration in the form the source expects: zone names without the final dot,
AAAA literals in quotes. -/
def sampleConfig : ConfigStruct :=
  { Binds := [{ Address := "0.0.0.0", Port := "53" }],
    Log := "bf-dns.log",
    Control := "ctrl.example",
    Contact := "admin@example.com",
    Questions := [("ok.example", ["bad.example"])],
    Answers := { Flipped := { A := "10.0.0.1", AAAA := "\"2001:db8::1\"" },
                 Correct := { A := "10.0.0.2", AAAA := "\"2001:db8::2\"" } } }

/-- The scenario of the specification: the same configuration with fully-qualified zone
names. -/
def scenarioConfig : ConfigStruct :=
  { sampleConfig with
    Control := "ctrl.example.",
    Questions := [("ok.example.", ["bad.example."])] }

/-- A configuration whose only flip alias is a single label. -/
def tldConfig : ConfigStruct :=
  { sampleConfig with Questions := [("org", ["com"])] }

/-- A configuration whose flip alias has three labels. -/
def deepConfig : ConfigStruct :=
  { sampleConfig with Questions := [("ok.example", ["x.bad.example"])] }

/-- A configuration that lists the same flip alias under two correct zones. -/
def sharedConfig : ConfigStruct :=
  { sampleConfig with
    Questions := [("ok.example", ["bad.example"]), ("fine.example", ["bad.example"])] }

/-- A configuration that leaves the AAAA literals out, so that they are empty strings. -/
def bareConfig : ConfigStruct :=
  { sampleConfig with
    Answers := { Flipped := { A := "10.0.0.1", AAAA := "" },
                 Correct := { A := "10.0.0.2", AAAA := "" } } }

/-- A transport whose addresses split into host and port. -/
def sampleWriter : ResponseWriter :=
  { LocalAddr := some ("192.0.2.1", "53"), RemoteAddr := some ("198.51.100.7", "40000") }

/-- An initial state: nothing logged, nothing written. -/
def sampleWorld : World := { now := "2015-01-01T00:00:00", log := [], sent := [] }

/-- A query with one question. -/
def query (name : String) (qtype qclass : Nat) : Msg :=
  { Id := 7, Response := false, Rcode := 0, Compress := false,
    Question := [{ Name := name, Qtype := qtype, Qclass := qclass }],
    Answer := [], Ns := [], Extra := [] }

/-! ## Named results of the handler steps -/

/-- The log entry `logQuestion` writes for a question. -/
def entryFor (w : ResponseWriter) (q : Question) (queryType : Nat) (σ : World) : LogEntry :=
  { Timestamp := σ.now,
    Type_ := queryType,
    Destination := (w.LocalAddr.getD ("", "")).1,
    Source := (w.RemoteAddr.getD ("", "")).1,
    Port := (w.RemoteAddr.getD ("", "")).2,
    QName := q.Name,
    QType := q.Qtype,
    QClass := q.Qclass }

/-- The message `createReply` returns for a request whose first question is `q`. -/
def replyTo (g : Globals) (req : Msg) (q : Question) : Msg :=
  { Id := req.Id, Response := true, Rcode := 0, Compress := true,
    Question := [q], Answer := [], Ns := [],
    Extra := [RR.TXT ⟨q.Name, TypeTXT, ClassINET, 604800⟩ [disclaimer g]] }

/-- The text `s[1:len(s)-1]` evaluates to when it does not panic: `s` without its first
and its last character. -/
def withoutEnds (s : String) : String :=
  String.mk ((s.data.drop 1).take (s.length - 2))

/-- The name the rewrite of `FlipServer` yields when it does not panic. -/
def rewrittenName (flippedDomains : GoMap) (name : String) : String :=
  Join ((Split name '.').set ((Split name '.').length - 3)
    (flippedDomains.get
      (Join (((Split name '.').drop ((Split name '.').length - 3)).take 2) "."))) "."

/-- A message carries the disclaimer: its additional section is exactly one TXT record of
class Internet with TTL 604800 whose text contains the configured control zone. -/
def HasDisclaimer (g : Globals) (m : Msg) : Prop :=
  ∃ owner text a b, m.Extra = [RR.TXT ⟨owner, TypeTXT, ClassINET, 604800⟩ [text]] ∧
    text = a ++ g.Config.Control ++ b

/-- The state right after `logQuestion` has logged the question `q`. -/
def logged (w : ResponseWriter) (q : Question) (queryType : Nat) (σ : World) : World :=
  { σ with log := σ.log ++ [entryFor w q queryType σ] }

/-! ## The dispatcher -/

/-- Modelled from the spec: the text after each dot of a name that is not its last
character, in order of decreasing length.  These are the proper suffixes of the name
that start at a label. -/
def suffixesFrom : List Char → List (List Char)
  | [] => []
  | c :: cs => if c = '.' ∧ cs ≠ [] then cs :: suffixesFrom cs else suffixesFrom cs

/-- Modelled from the spec: the zones a query name can match, longest first: the name
itself and its proper suffixes that start at a label. -/
def labelSuffixes (q : String) : List String :=
  q :: (suffixesFrom q.data).map String.mk

/-- Modelled from the spec: the dispatcher (the matching of `dns.ServeMux`, which is
library code).  The query name is matched exactly against the registered zones, the
longest label-aligned suffix first; when nothing matches, the root zone `.` is the
default route.  `none` means that no handler is registered at all. -/
def ServeMux.dispatch (mux : ServeMux) (q : String) : Option Handler :=
  match (labelSuffixes q).findSome? (fun zone => mux.lookup zone) with
  | some h => some h
  | none => mux.lookup "."

/-- A zone is a label-aligned suffix of a name: it is the root zone, or the whole name,
or the text after one of the dots of the name (a dot followed by the zone ends the
name). -/
def IsLabelSuffix (zone name : String) : Prop :=
  zone = "." ∨ zone = name ∨ List.IsSuffix ('.' :: zone.data) name.data

instance (zone name : String) : Decidable (IsLabelSuffix zone name) := by
  unfold IsLabelSuffix
  infer_instance

/-! ## A sequence of handler invocations -/

/-- One invocation of a handler by a listener: the handler the query was routed to, the
transport, the request, and the clock reading at that moment. -/
structure Invocation where
  handler : Handler
  w : ResponseWriter
  req : Msg
  now : String

/-- The state after the given invocations were made, one after the other.  A panic ends
the invocation that raised it; the state it leaves is the state it had reached. -/
def handleAll (g : Globals) : List Invocation → World → World
  | [], σ => σ
  | c :: cs, σ => handleAll g cs (c.handler.run g c.w c.req { σ with now := c.now }).world

/-! ## Comparing records -/

/-- Apply a change to the header of a record and leave its data as it is. -/
def RR.mapHdr (f : RR_Header → RR_Header) : RR → RR
  | .A h a => .A (f h) a
  | .NS h ns => .NS (f h) ns
  | .SOA h ns mbox serial refresh retry expire minttl =>
      .SOA (f h) ns mbox serial refresh retry expire minttl
  | .MX h preference mx => .MX (f h) preference mx
  | .AAAA h a => .AAAA (f h) a
  | .TXT h txt => .TXT (f h) txt

/-- The same record with another TTL. -/
def RR.withTtl (ttl : Nat) (rr : RR) : RR :=
  rr.mapHdr fun h => { h with Ttl := ttl }

/-- The same record with another owner name. -/
def RR.withName (name : String) (rr : RR) : RR :=
  rr.mapHdr fun h => { h with Name := name }

/-- The records the handlers build as the answer to a class-Internet query of type NS
(2), SOA (6) or MX (15) for the owner `name`; `mxTtl` is the TTL of the MX record,
604800 in `ControlServer` and `FlipServer`, 1 in `UnflippedServer`. -/
def zoneRecords (g : Globals) (name : String) (qtype mxTtl : Nat) : List RR :=
  if qtype = 2 then
    [RR.NS ⟨name, TypeNS, ClassINET, 604800⟩ ("ns1." ++ g.Config.Control ++ "."),
     RR.NS ⟨name, TypeNS, ClassINET, 604800⟩ ("ns2." ++ g.Config.Control ++ ".")]
  else if qtype = 6 then
    [RR.SOA ⟨name, TypeSOA, ClassINET, 604800⟩ ("ns1." ++ g.Config.Control ++ ".")
      (g.Config.Contact ++ ".") 1 28800 7200 604800 60]
  else
    [RR.MX ⟨name, TypeMX, ClassINET, mxTtl⟩ 1 ("mx." ++ g.Config.Control ++ ".")]

/-- The leading label of a zone name in the words of the specification: the text of the
name before its first dot (the whole name when it has no dot). -/
def leadingLabel (zone : String) : String :=
  String.mk (zone.data.takeWhile (fun c => c ≠ '.'))

/-! ## What the replies of a handler look like -/

/-- The name-server, mail-exchanger and SOA primary names a record carries: the target
of an NS record, the primary name server of an SOA record, the exchanger of an MX
record. -/
def RR.targets : RR → List String
  | .NS _ ns => [ns]
  | .SOA _ ns _ _ _ _ _ _ => [ns]
  | .MX _ _ mx => [mx]
  | _ => []

/-- The three server names the handlers build from the control zone. -/
def serverNames (g : Globals) : List String :=
  ["ns1." ++ g.Config.Control ++ ".", "ns2." ++ g.Config.Control ++ ".",
   "mx." ++ g.Config.Control ++ "."]

/-- A name ends with exactly one dot: its last character is a dot and the character
before it, if any, is not. -/
def EndsWithOneDot (s : String) : Prop :=
  s.data.getLast? = some '.' ∧ s.data.dropLast.getLast? ≠ some '.'

instance (s : String) : Decidable (EndsWithOneDot s) := by
  unfold EndsWithOneDot
  infer_instance

/-- A name has no empty label before its final dot: of the parts the dots split it
into, only the last may be empty. -/
def NoEmptyLabel (s : String) : Prop :=
  "" ∉ (Split s '.').dropLast

instance (s : String) : Decidable (NoEmptyLabel s) := by
  unfold NoEmptyLabel
  infer_instance

/-- The query is one the handlers answer with records: class Internet and type A, NS,
SOA, MX or AAAA. -/
def Answered (q : Question) : Prop :=
  q.Qclass = 1 ∧ (q.Qtype = 1 ∨ q.Qtype = 2 ∨ q.Qtype = 6 ∨ q.Qtype = 15 ∨ q.Qtype = 28)

instance (q : Question) : Decidable (Answered q) := by
  unfold Answered
  infer_instance

/-- The message `m` is one a run of the handler `h` writes for a request whose first
question is `q`: the refused reply of `UnknownServer`, the filled reply of
`ControlServer` or `UnflippedServer`, the first filled reply of `FlipServer`, or its
second one, built for the rewritten name. -/
def Written (h : Handler) (g : Globals) (req : Msg) (q : Question) (m : Msg) : Prop :=
  match h with
  | .UnknownServer => m = { replyTo g req q with Rcode := 5 }
  | .ControlServer => ControlServer.fill g (replyTo g req q) = some m
  | .UnflippedServer => UnflippedServer.fill g (replyTo g req q) = some m
  | .FlipServer =>
      FlipServer.fill1 g (replyTo g req q) = some m ∨
      (3 ≤ (Split q.Name '.').length ∧
        FlipServer.fill2 g { replyTo g req q with
          Question := [{ q with Name := rewrittenName g.flippedDomains q.Name }] } = some m)

/-- The messages a run has added to the transport. -/
def newReplies (σ : World) (o : Outcome) : List Msg :=
  o.world.sent.drop σ.sent.length

/-! # Theorems -/

/-! ## Basic facts about the handler steps -/

theorem logQuestion_done (w : ResponseWriter) (req : Msg) (t : Nat) (σ : World)
    (l r : String × String) (q : Question) (rest : List Question)
    (hl : w.LocalAddr = some l) (hr : w.RemoteAddr = some r)
    (hq : req.Question = q :: rest) :
    logQuestion w req t σ = .done { σ with log := σ.log ++ [entryFor w q t σ] } := by
  simp [logQuestion, entryFor, hl, hr, hq]

theorem createReply_some (g : Globals) (req : Msg) (q : Question) (rest : List Question)
    (hq : req.Question = q :: rest) :
    createReply g req = some (replyTo g req q) := by
  simp [createReply, SetReply, replyTo, hq]

theorem stripEnds_some (s : String) (h : 2 ≤ s.length) :
    stripEnds s = some (withoutEnds s) := by
  unfold stripEnds sliceString withoutEnds
  have h1 : (0:Int) ≤ 1 ∧ (1:Int) ≤ (s.length : Int) - 1 ∧
      (s.length : Int) - 1 ≤ (s.length : Int) := by omega
  rw [if_pos h1]
  have h2 : ((s.length : Int) - 1).toNat - (1 : Int).toNat = s.length - 2 := by omega
  rw [h2]
  rfl

theorem stripEnds_none (s : String) (h : s.length < 2) : stripEnds s = none := by
  unfold stripEnds sliceString
  rw [if_neg]
  omega

theorem hostRewrite_some (fd : GoMap) (name : String) (h : 3 ≤ (Split name '.').length) :
    FlipServer.hostRewrite fd name = some (rewrittenName fd name) := by
  unfold FlipServer.hostRewrite sliceParts setPart rewrittenName
  simp only []
  have h1 : (0:Int) ≤ ((Split name '.').length : Int) - 3 ∧
      ((Split name '.').length : Int) - 3 ≤ ((Split name '.').length : Int) - 1 ∧
      ((Split name '.').length : Int) - 1 ≤ ((Split name '.').length : Int) := by omega
  have h2 : (0:Int) ≤ ((Split name '.').length : Int) - 3 ∧
      ((Split name '.').length : Int) - 3 < ((Split name '.').length : Int) := by omega
  rw [if_pos h1]
  simp only [if_pos h2]
  have h3 : (((Split name '.').length : Int) - 3).toNat = (Split name '.').length - 3 := by
    omega
  have h4 : (((Split name '.').length : Int) - 1).toNat - ((Split name '.').length - 3) = 2 := by
    omega
  simp only [h3, h4]

theorem hostRewrite_none (fd : GoMap) (name : String) (h : (Split name '.').length < 3) :
    FlipServer.hostRewrite fd name = none := by
  unfold FlipServer.hostRewrite sliceParts
  simp only []
  rw [if_neg]
  omega

/-- A run of `FlipServer` in which no step panics: one log entry, two replies. -/
theorem FlipServer_done (g : Globals) (w : ResponseWriter) (req : Msg) (σ : World)
    (l r : String × String) (q : Question) (rest : List Question) (m1 m2 : Msg)
    (name' : String)
    (hl : w.LocalAddr = some l) (hr : w.RemoteAddr = some r)
    (hq : req.Question = q :: rest)
    (h1 : FlipServer.fill1 g (replyTo g req q) = some m1)
    (hn : FlipServer.hostRewrite g.flippedDomains q.Name = some name')
    (h2 : FlipServer.fill2 g { replyTo g req q with Question := [{ q with Name := name' }] }
      = some m2) :
    FlipServer g w req σ =
      .done { σ with log := σ.log ++ [entryFor w q 3 σ], sent := σ.sent ++ [m1, m2] } := by
  have hren : FlipServer.rename g (replyTo g req q) =
      some { replyTo g req q with Question := [{ q with Name := name' }] } := by
    simp [FlipServer.rename, replyTo, hn]
  simp [FlipServer, logQuestion_done w req 3 σ l r q rest hl hr hq,
    createReply_some g req q rest hq, Outcome.andThen, orPanic, h1, hren, h2, WriteMsg]

/-! ## Splitting and joining on dots, and the table `main` builds -/

theorem splitChars_ne_nil (sep : Char) (s : List Char) : splitChars sep s ≠ [] := by
  cases s with
  | nil => simp [splitChars]
  | cons c cs =>
    unfold splitChars
    split <;> simp

theorem splitChars_append_sep (sep : Char) (a b : List Char) :
    splitChars sep (a ++ sep :: b) = splitChars sep a ++ splitChars sep b := by
  induction a with
  | nil => simp [splitChars]
  | cons c cs ih =>
    by_cases hc : c = sep
    · simp [splitChars, hc, ih]
    · have hne := splitChars_ne_nil sep cs
      cases hsp : splitChars sep cs with
      | nil => exact absurd hsp hne
      | cons p ps =>
        rw [hsp] at ih
        simp [splitChars, hc, ih, hsp]

theorem splitChars_of_not_mem (sep : Char) (a : List Char) (h : sep ∉ a) :
    splitChars sep a = [a] := by
  induction a with
  | nil => simp [splitChars]
  | cons c cs ih =>
    have hc : c ≠ sep := fun e => h (by simp [e])
    have hcs : sep ∉ cs := fun e => h (by simp [e])
    simp [splitChars, hc, ih hcs]

theorem joinChars_splitChars (sep : Char) (a : List Char) :
    joinChars [sep] (splitChars sep a) = a := by
  induction a with
  | nil => simp [splitChars, joinChars]
  | cons c cs ih =>
    have hne := splitChars_ne_nil sep cs
    by_cases hc : c = sep
    · cases hsp : splitChars sep cs with
      | nil => exact absurd hsp hne
      | cons p ps =>
        rw [hsp] at ih
        simp [splitChars, hc, hsp, joinChars, ih]
    · cases hsp : splitChars sep cs with
      | nil => exact absurd hsp hne
      | cons p ps =>
        rw [hsp] at ih
        cases ps with
        | nil =>
          simp [joinChars] at ih
          simp [splitChars, hc, hsp, joinChars, ih]
        | cons q qs =>
          simp [joinChars] at ih
          simp [splitChars, hc, hsp, joinChars, ih]

theorem joinChars_append (sep : List Char) (xs ys : List (List Char))
    (hx : xs ≠ []) (hy : ys ≠ []) :
    joinChars sep (xs ++ ys) = joinChars sep xs ++ sep ++ joinChars sep ys := by
  induction xs with
  | nil => exact absurd rfl hx
  | cons x xs ih =>
    cases xs with
    | nil =>
      cases ys with
      | nil => exact absurd rfl hy
      | cons y ys => simp [joinChars]
    | cons x2 xs =>
      have := ih (by simp)
      simp [joinChars] at this ⊢
      rw [this]

theorem GoMap_get_set (m : GoMap) (k v k' : String) :
    (GoMap.set m k v).get k' = if k' = k then v else m.get k' := by
  unfold GoMap.get GoMap.set
  by_cases h : k' = k
  · simp [h]
  · have hb : (k' == k) = false := by simpa using h
    simp [List.lookup_cons, hb, h]

theorem flipLoop_get (correct : String) (flips : List String) (st : GoMap × ServeMux)
    (F : String) :
    (main.flipLoop correct flips st).1.get F =
      if F ∈ flips then (Split correct '.').headD "" else st.1.get F := by
  induction flips generalizing st with
  | nil => simp [main.flipLoop]
  | cons f fs ih =>
    have hstep : main.flipLoop correct (f :: fs) st =
        main.flipLoop correct fs
          (st.1.set f ((Split correct '.').headD ""), HandleFunc st.2 f Handler.FlipServer) := by
      simp [main.flipLoop]
    rw [hstep, ih, GoMap_get_set]
    by_cases h1 : F ∈ fs
    · simp [h1]
    · by_cases h2 : F = f
      · simp [h2]
      · simp [h1, h2]

theorem questionLoop_cons (e : String × List String) (qs : List (String × List String))
    (st : GoMap × ServeMux) :
    main.questionLoop (e :: qs) st =
      main.questionLoop qs
        (main.flipLoop e.1 e.2 (st.1, HandleFunc st.2 e.1 Handler.UnflippedServer)) := by
  simp [main.questionLoop]

theorem questionLoop_get_of_not_listed (qs : List (String × List String))
    (st : GoMap × ServeMux) (F : String) (h : ∀ e ∈ qs, F ∉ e.2) :
    (main.questionLoop qs st).1.get F = st.1.get F := by
  induction qs generalizing st with
  | nil => simp [main.questionLoop]
  | cons e qs ih =>
    rw [questionLoop_cons, ih _ (fun e' he' => h e' (List.mem_cons_of_mem _ he')),
      flipLoop_get, if_neg (h e (List.mem_cons_self _ _))]

theorem questionLoop_get (qs : List (String × List String)) (st : GoMap × ServeMux)
    (F v : String) (hv : ∀ e ∈ qs, F ∈ e.2 → (Split e.1 '.').headD "" = v)
    (hex : ∃ e ∈ qs, F ∈ e.2) :
    (main.questionLoop qs st).1.get F = v := by
  induction qs generalizing st with
  | nil => simp at hex
  | cons e qs ih =>
    rw [questionLoop_cons]
    by_cases hrest : ∃ e' ∈ qs, F ∈ e'.2
    · exact ih _ (fun e' he' => hv e' (List.mem_cons_of_mem _ he')) hrest
    · have hnone : ∀ e' ∈ qs, F ∉ e'.2 := fun e' he' hF => hrest ⟨e', he', hF⟩
      rw [questionLoop_get_of_not_listed _ _ _ hnone, flipLoop_get]
      obtain ⟨e0, he0, hF0⟩ := hex
      rcases List.mem_cons.mp he0 with rfl | hmem
      · rw [if_pos hF0]
        exact hv _ (List.mem_cons_self _ _) hF0
      · exact absurd hF0 (hnone e0 hmem)

theorem Split_append_dot (a b : String) :
    Split (a ++ "." ++ b) '.' = Split a '.' ++ Split b '.' := by
  unfold Split
  have : (a ++ "." ++ b).data = a.data ++ '.' :: b.data := by
    simp [String.data_append]
  rw [this, splitChars_append_sep, List.map_append]

theorem Split_label (a : String) (h : '.' ∉ a.data) : Split a '.' = [a] := by
  unfold Split
  rw [splitChars_of_not_mem _ _ h]
  rfl

theorem Split_ne_nil (a : String) : Split a '.' ≠ [] := by
  unfold Split
  simpa using splitChars_ne_nil '.' a.data

theorem Join_Split (a : String) : Join (Split a '.') "." = a := by
  unfold Join Split
  have h : List.map String.data (List.map String.mk (splitChars '.' a.data))
      = splitChars '.' a.data := by
    rw [List.map_map]
    exact List.map_id _
  rw [h]
  have h2 : ".".data = ['.'] := rfl
  rw [h2, joinChars_splitChars]

theorem Join_append (xs ys : List String) (hx : xs ≠ []) (hy : ys ≠ []) :
    Join (xs ++ ys) "." = Join xs "." ++ "." ++ Join ys "." := by
  unfold Join
  apply String.ext
  simp only [List.map_append, String.data_append]
  rw [joinChars_append _ _ _ (by simpa using hx) (by simpa using hy)]

theorem rewrittenName_of_parts (fd : GoMap) (name : String) (ps : List String)
    (a b c : String) (h : Split name '.' = ps ++ [a, b, c]) :
    rewrittenName fd name = Join (ps ++ [fd.get (Join [a, b] "."), b, c]) "." := by
  unfold rewrittenName
  rw [h]
  have hlen : (ps ++ [a, b, c]).length - 3 = ps.length := by simp
  rw [hlen]
  simp [List.set_append]

theorem Join_three (a b c : String) : Join [a, b, c] "." = a ++ "." ++ b ++ "." ++ c := by
  apply String.ext
  simp [Join, joinChars]

theorem Join_two (a b : String) : Join [a, b] "." = a ++ "." ++ b := by
  apply String.ext
  simp [Join, joinChars]

theorem Split_empty : Split "" '.' = [""] := by decide

theorem Split_alias_name (pre l1 l2 : String) (h1 : '.' ∉ l1.data) (h2 : '.' ∉ l2.data)
    (hpre : pre = "" ∨ ∃ p, pre = p ++ ".") :
    ∃ ps, Split (pre ++ l1 ++ "." ++ l2 ++ ".") '.' = ps ++ [l1, l2, ""] ∧
      ∀ d : String, Join (ps ++ [d, l2, ""]) "." = pre ++ d ++ "." ++ l2 ++ "." := by
  have hsplit : Split (pre ++ l1 ++ "." ++ l2 ++ ".") '.' =
      Split (pre ++ l1) '.' ++ [l2, ""] := by
    have e : pre ++ l1 ++ "." ++ l2 ++ "." = (pre ++ l1 ++ "." ++ l2) ++ "." ++ "" := by
      apply String.ext
      simp
    rw [e, Split_append_dot, Split_append_dot, Split_label l2 h2, Split_empty]
    simp
  rcases hpre with rfl | ⟨p, rfl⟩
  · refine ⟨[], ?_, ?_⟩
    · rw [hsplit]
      have e : ("" : String) ++ l1 = l1 := by
        apply String.ext
        simp
      rw [e, Split_label l1 h1]
      rfl
    · intro d
      rw [List.nil_append, Join_three]
      apply String.ext
      simp
  · refine ⟨Split p '.', ?_, ?_⟩
    · rw [hsplit, Split_append_dot, Split_label l1 h1]
      simp
    · intro d
      rw [Join_append _ _ (Split_ne_nil p) (by simp), Join_Split, Join_three]
      apply String.ext
      simp

theorem main_flippedDomains (cfg : ConfigStruct) :
    (main cfg).1.flippedDomains =
      (main.questionLoop cfg.Questions
        ([], HandleFunc (HandleFunc [] "." Handler.UnknownServer) cfg.Control
          Handler.ControlServer)).1 := rfl

/-! ## How a run of each handler can end -/

theorem replyTo_HasDisclaimer (g : Globals) (req : Msg) (q : Question) :
    HasDisclaimer g (replyTo g req q) :=
  ⟨q.Name, disclaimer g,
    "This server is part of an InfoSec project. You can find more information on ", "",
    rfl, by simp [disclaimer]⟩

theorem ControlServer_fill_Extra (g : Globals) (m m' : Msg)
    (h : ControlServer.fill g m = some m') : m'.Extra = m.Extra := by
  unfold ControlServer.fill at h
  repeat' split at h
  all_goals (cases h; try rfl)

theorem UnflippedServer_fill_Extra (g : Globals) (m m' : Msg)
    (h : UnflippedServer.fill g m = some m') : m'.Extra = m.Extra := by
  unfold UnflippedServer.fill at h
  repeat' split at h
  all_goals (cases h; try rfl)

theorem FlipServer_fill1_Extra (g : Globals) (m m' : Msg)
    (h : FlipServer.fill1 g m = some m') : m'.Extra = m.Extra := by
  unfold FlipServer.fill1 at h
  repeat' split at h
  all_goals (cases h; try rfl)

theorem FlipServer_fill2_Extra (g : Globals) (m m' : Msg)
    (h : FlipServer.fill2 g m = some m') : m'.Extra = m.Extra := by
  unfold FlipServer.fill2 at h
  repeat' split at h
  all_goals (cases h; try rfl)

theorem FlipServer_rename_Extra (g : Globals) (m m' : Msg)
    (h : FlipServer.rename g m = some m') : m'.Extra = m.Extra := by
  unfold FlipServer.rename at h
  repeat' split at h
  all_goals (cases h; try rfl)

theorem logQuestion_cases (w : ResponseWriter) (req : Msg) (t : Nat) (σ : World) :
    logQuestion w req t σ = .panic σ ∨
    ∃ l r q rest, w.LocalAddr = some l ∧ w.RemoteAddr = some r ∧ req.Question = q :: rest := by
  cases hl : w.LocalAddr with
  | none => left; simp [logQuestion, hl]
  | some l =>
    cases hr : w.RemoteAddr with
    | none => left; simp [logQuestion, hl, hr]
    | some r =>
      cases hq : req.Question with
      | nil => left; simp [logQuestion, hl, hr, hq]
      | cons q rest => right; exact ⟨l, r, q, rest, rfl, rfl, rfl⟩

/-- A run of `UnknownServer` that gets past logging writes one refused reply. -/
theorem UnknownServer_run (g : Globals) (w : ResponseWriter) (req : Msg) (σ : World)
    (l r : String × String) (q : Question) (rest : List Question)
    (hl : w.LocalAddr = some l) (hr : w.RemoteAddr = some r)
    (hq : req.Question = q :: rest) :
    UnknownServer g w req σ = .done { logged w q 0 σ with
      sent := σ.sent ++ [{ replyTo g req q with Rcode := 5 }] } := by
  simp [UnknownServer, logQuestion_done w req 0 σ l r q rest hl hr hq, Outcome.andThen,
    orPanic, createReply_some g req q rest hq, WriteMsg, logged]

/-- A run of `ControlServer` that gets past logging: a panic while the reply is built,
or one reply. -/
theorem ControlServer_run (g : Globals) (w : ResponseWriter) (req : Msg) (σ : World)
    (l r : String × String) (q : Question) (rest : List Question)
    (hl : w.LocalAddr = some l) (hr : w.RemoteAddr = some r)
    (hq : req.Question = q :: rest) :
    (ControlServer.fill g (replyTo g req q) = none ∧
        ControlServer g w req σ = .panic (logged w q 1 σ)) ∨
    ∃ m, ControlServer.fill g (replyTo g req q) = some m ∧
        ControlServer g w req σ = .done { logged w q 1 σ with sent := σ.sent ++ [m] } := by
  have h := logQuestion_done w req 1 σ l r q rest hl hr hq
  cases hf : ControlServer.fill g (replyTo g req q) with
  | none =>
    left
    simp [ControlServer, h, Outcome.andThen, orPanic, createReply_some g req q rest hq, hf,
      logged]
  | some m =>
    right
    refine ⟨m, rfl, ?_⟩
    simp [ControlServer, h, Outcome.andThen, orPanic, createReply_some g req q rest hq, hf,
      WriteMsg, logged]

/-- A run of `UnflippedServer` that gets past logging: a panic while the reply is
built, or one reply. -/
theorem UnflippedServer_run (g : Globals) (w : ResponseWriter) (req : Msg) (σ : World)
    (l r : String × String) (q : Question) (rest : List Question)
    (hl : w.LocalAddr = some l) (hr : w.RemoteAddr = some r)
    (hq : req.Question = q :: rest) :
    (UnflippedServer.fill g (replyTo g req q) = none ∧
        UnflippedServer g w req σ = .panic (logged w q 2 σ)) ∨
    ∃ m, UnflippedServer.fill g (replyTo g req q) = some m ∧
        UnflippedServer g w req σ = .done { logged w q 2 σ with sent := σ.sent ++ [m] } := by
  have h := logQuestion_done w req 2 σ l r q rest hl hr hq
  cases hf : UnflippedServer.fill g (replyTo g req q) with
  | none =>
    left
    simp [UnflippedServer, h, Outcome.andThen, orPanic, createReply_some g req q rest hq, hf,
      logged]
  | some m =>
    right
    refine ⟨m, rfl, ?_⟩
    simp [UnflippedServer, h, Outcome.andThen, orPanic, createReply_some g req q rest hq, hf,
      WriteMsg, logged]

/-- A run of `FlipServer` that gets past logging: a panic while the first reply is
built, a panic after the first reply was written, or two replies. -/
theorem FlipServer_run (g : Globals) (w : ResponseWriter) (req : Msg) (σ : World)
    (l r : String × String) (q : Question) (rest : List Question)
    (hl : w.LocalAddr = some l) (hr : w.RemoteAddr = some r)
    (hq : req.Question = q :: rest) :
    (FlipServer.fill1 g (replyTo g req q) = none ∧
        FlipServer g w req σ = .panic (logged w q 3 σ)) ∨
    ∃ m1, FlipServer.fill1 g (replyTo g req q) = some m1 ∧
      (((∀ m2', FlipServer.rename g (replyTo g req q) = some m2' →
            FlipServer.fill2 g m2' = none) ∧
          FlipServer g w req σ = .panic { logged w q 3 σ with sent := σ.sent ++ [m1] }) ∨
        ∃ m2' m2, FlipServer.rename g (replyTo g req q) = some m2' ∧
          FlipServer.fill2 g m2' = some m2 ∧
          FlipServer g w req σ =
            .done { logged w q 3 σ with sent := σ.sent ++ [m1, m2] }) := by
  have h := logQuestion_done w req 3 σ l r q rest hl hr hq
  cases hf : FlipServer.fill1 g (replyTo g req q) with
  | none =>
    left
    simp [FlipServer, h, Outcome.andThen, orPanic, createReply_some g req q rest hq, hf,
      logged]
  | some m1 =>
    right
    refine ⟨m1, rfl, ?_⟩
    cases hr2 : FlipServer.rename g (replyTo g req q) with
    | none =>
      left
      simp [FlipServer, h, Outcome.andThen, orPanic, createReply_some g req q rest hq, hf,
        hr2, WriteMsg, logged]
    | some m2' =>
      cases hf2 : FlipServer.fill2 g m2' with
      | none =>
        left
        simp [FlipServer, h, Outcome.andThen, orPanic, createReply_some g req q rest hq, hf,
          hr2, hf2, WriteMsg, logged]
      | some m2 =>
        right
        refine ⟨m2', m2, rfl, hf2, ?_⟩
        simp [FlipServer, h, Outcome.andThen, orPanic, createReply_some g req q rest hq, hf,
          hr2, hf2, WriteMsg, logged]

/-- A run of any handler that panics while logging leaves the state as it was. -/
theorem run_of_log_panic (h : Handler) (g : Globals) (w : ResponseWriter) (req : Msg)
    (σ : World) (hp : ∀ t, logQuestion w req t σ = .panic σ) :
    h.run g w req σ = .panic σ := by
  cases h <;>
    simp [Handler.run, UnknownServer, ControlServer, UnflippedServer, FlipServer, hp,
      Outcome.andThen]

/-! ## The zone table `main` registers -/

theorem mem_suffixesFrom (s : List Char) (a : List Char) (h : s ∈ suffixesFrom a) :
    ∃ x, a = x ++ '.' :: s := by
  induction a with
  | nil => simp [suffixesFrom] at h
  | cons c cs ih =>
    unfold suffixesFrom at h
    split at h
    · rename_i hc
      rcases List.mem_cons.mp h with rfl | h'
      · exact ⟨[], by simp [hc.1]⟩
      · obtain ⟨x, hx⟩ := ih h'
        exact ⟨c :: x, by simp [hx]⟩
    · obtain ⟨x, hx⟩ := ih h
      exact ⟨c :: x, by simp [hx]⟩

theorem mem_labelSuffixes (q s : String) (h : s ∈ labelSuffixes q) : IsLabelSuffix s q := by
  unfold labelSuffixes at h
  rcases List.mem_cons.mp h with rfl | h'
  · exact Or.inr (Or.inl rfl)
  · obtain ⟨cs, hcs, rfl⟩ := List.mem_map.mp h'
    obtain ⟨x, hx⟩ := mem_suffixesFrom cs q.data hcs
    exact Or.inr (Or.inr ⟨x, hx.symm⟩)

theorem lookup_HandleFunc (mux : ServeMux) (pattern s : String) (h : Handler)
    (hne : Fqdn pattern ≠ s) : (HandleFunc mux pattern h).lookup s = mux.lookup s := by
  unfold HandleFunc
  have hb : (s == Fqdn pattern) = false := by simpa using fun e => hne e.symm
  simp [List.lookup_cons, hb]

theorem flipLoop_lookup (correct : String) (flips : List String) (st : GoMap × ServeMux)
    (s : String) (h : ∀ f ∈ flips, Fqdn f ≠ s) :
    (main.flipLoop correct flips st).2.lookup s = st.2.lookup s := by
  induction flips generalizing st with
  | nil => simp [main.flipLoop]
  | cons f fs ih =>
    have hstep : main.flipLoop correct (f :: fs) st =
        main.flipLoop correct fs
          (st.1.set f ((Split correct '.').headD ""), HandleFunc st.2 f Handler.FlipServer) := by
      simp [main.flipLoop]
    rw [hstep, ih _ (fun f' hf' => h f' (List.mem_cons_of_mem _ hf'))]
    exact lookup_HandleFunc _ _ _ _ (h f (List.mem_cons_self _ _))

theorem questionLoop_lookup (qs : List (String × List String)) (st : GoMap × ServeMux)
    (s : String) (h : ∀ e ∈ qs, Fqdn e.1 ≠ s ∧ ∀ f ∈ e.2, Fqdn f ≠ s) :
    (main.questionLoop qs st).2.lookup s = st.2.lookup s := by
  induction qs generalizing st with
  | nil => simp [main.questionLoop]
  | cons e qs ih =>
    rw [questionLoop_cons, ih _ (fun e' he' => h e' (List.mem_cons_of_mem _ he')),
      flipLoop_lookup _ _ _ _ (h e (List.mem_cons_self _ _)).2]
    exact lookup_HandleFunc _ _ _ _ (h e (List.mem_cons_self _ _)).1

theorem main_mux_lookup (cfg : ConfigStruct) (s : String) (hc : Fqdn cfg.Control ≠ s)
    (hq : ∀ e ∈ cfg.Questions, Fqdn e.1 ≠ s ∧ ∀ f ∈ e.2, Fqdn f ≠ s) :
    (main cfg).2.lookup s = if s = "." then some Handler.UnknownServer else none := by
  have hm : (main cfg).2 = (main.questionLoop cfg.Questions
      ([], HandleFunc (HandleFunc [] "." Handler.UnknownServer) cfg.Control
        Handler.ControlServer)).2 := rfl
  rw [hm, questionLoop_lookup _ _ _ hq, lookup_HandleFunc _ _ _ _ hc]
  have hroot : Fqdn "." = "." := by decide
  unfold HandleFunc
  rw [hroot]
  by_cases hs : s = "."
  · simp [hs]
  · have hb : (s == ".") = false := by simpa using hs
    simp [List.lookup_cons, hb, hs]

theorem findSome_none_or (l : List String) (f : String → Option Handler) (a : Handler)
    (h : ∀ x ∈ l, f x = none ∨ f x = some a) :
    l.findSome? f = none ∨ l.findSome? f = some a := by
  induction l with
  | nil => simp
  | cons x xs ih =>
    rcases h x (List.mem_cons_self _ _) with hx | hx
    · simpa [List.findSome?_cons, hx] using ih (fun y hy => h y (List.mem_cons_of_mem _ hy))
    · simp [List.findSome?_cons, hx]

theorem dispatch_unknown (cfg : ConfigStruct) (name : String)
    (hc : ¬ IsLabelSuffix (Fqdn cfg.Control) name)
    (hz : ∀ e ∈ cfg.Questions, ¬ IsLabelSuffix (Fqdn e.1) name ∧
      ∀ f ∈ e.2, ¬ IsLabelSuffix (Fqdn f) name) :
    ServeMux.dispatch (main cfg).2 name = some Handler.UnknownServer := by
  have key : ∀ s, IsLabelSuffix s name →
      (main cfg).2.lookup s = if s = "." then some Handler.UnknownServer else none := by
    intro s hs
    refine main_mux_lookup cfg s (fun e => hc (e ▸ hs)) (fun e he => ⟨fun e' => ?_, fun f hf e' => ?_⟩)
    · exact (hz e he).1 (e' ▸ hs)
    · exact (hz e he).2 f hf (e' ▸ hs)
  have hroot : (main cfg).2.lookup "." = some Handler.UnknownServer := by
    rw [key "." (Or.inl rfl)]
    simp
  have hall : ∀ s ∈ labelSuffixes name,
      (main cfg).2.lookup s = none ∨ (main cfg).2.lookup s = some Handler.UnknownServer := by
    intro s hs
    rw [key s (mem_labelSuffixes name s hs)]
    by_cases h : s = "." <;> simp [h]
  unfold ServeMux.dispatch
  rcases findSome_none_or _ _ _ hall with h | h
  · rw [h]
    exact hroot
  · rw [h]

/-! ## Facts used for the log and the reply count -/

/-- What one invocation that gets past the address checks adds to the log. -/
theorem run_log (h : Handler) (g : Globals) (w : ResponseWriter) (req : Msg) (σ : World)
    (l r : String × String) (q : Question) (rest : List Question)
    (hl : w.LocalAddr = some l) (hr : w.RemoteAddr = some r)
    (hq : req.Question = q :: rest) :
    (h.run g w req σ).world.log = σ.log ++
      [{ Timestamp := σ.now, Type_ := h.code, Destination := l.1, Source := r.1,
         Port := r.2, QName := q.Name, QType := q.Qtype, QClass := q.Qclass }] := by
  cases h with
  | UnknownServer =>
    simp [Handler.run, UnknownServer_run g w req σ l r q rest hl hr hq, Outcome.world, logged,
      entryFor, hl, hr, Handler.code]
  | ControlServer =>
    rcases ControlServer_run g w req σ l r q rest hl hr hq with ⟨_, e⟩ | ⟨m, _, e⟩ <;>
      simp [Handler.run, e, Outcome.world, logged, entryFor, hl, hr, Handler.code]
  | UnflippedServer =>
    rcases UnflippedServer_run g w req σ l r q rest hl hr hq with ⟨_, e⟩ | ⟨m, _, e⟩ <;>
      simp [Handler.run, e, Outcome.world, logged, entryFor, hl, hr, Handler.code]
  | FlipServer =>
    rcases FlipServer_run g w req σ l r q rest hl hr hq with ⟨_, e⟩ |
      ⟨m1, _, ⟨_, e⟩ | ⟨m2', m2, _, _, e⟩⟩ <;>
      simp [Handler.run, e, Outcome.world, logged, entryFor, hl, hr, Handler.code]

theorem ControlServer_fill_some (g : Globals) (m : Msg) (q : Question)
    (hQ : m.Question = [q])
    (ha : q.Qclass = 1 → q.Qtype = 28 →
      2 ≤ g.Config.Answers.Flipped.AAAA.length ∧ 2 ≤ g.Config.Answers.Correct.AAAA.length) :
    ∃ m', ControlServer.fill g m = some m' ∧ m'.Question = [q] := by
  unfold ControlServer.fill
  rw [hQ]
  simp only []
  split_ifs with h1 h2 h3 h4 h5 h6
  all_goals first
    | exact ⟨_, rfl, rfl⟩
    | exact ⟨_, rfl, hQ⟩
    | (rw [stripEnds_some _ (ha h1 h6).2, stripEnds_some _ (ha h1 h6).1]
       exact ⟨_, rfl, rfl⟩)

theorem UnflippedServer_fill_some (g : Globals) (m : Msg) (q : Question)
    (hQ : m.Question = [q])
    (ha : q.Qclass = 1 → q.Qtype = 28 →
      2 ≤ g.Config.Answers.Flipped.AAAA.length ∧ 2 ≤ g.Config.Answers.Correct.AAAA.length) :
    ∃ m', UnflippedServer.fill g m = some m' ∧ m'.Question = [q] := by
  unfold UnflippedServer.fill
  rw [hQ]
  simp only []
  split_ifs with h1 h2 h3 h4 h5 h6
  all_goals first
    | exact ⟨_, rfl, rfl⟩
    | exact ⟨_, rfl, hQ⟩
    | (rw [stripEnds_some _ (ha h1 h6).2, stripEnds_some _ (ha h1 h6).1]
       exact ⟨_, rfl, rfl⟩)

theorem FlipServer_fill1_some (g : Globals) (m : Msg) (q : Question)
    (hQ : m.Question = [q])
    (ha : q.Qclass = 1 → q.Qtype = 28 → 2 ≤ g.Config.Answers.Flipped.AAAA.length) :
    ∃ m', FlipServer.fill1 g m = some m' ∧ m'.Question = [q] := by
  unfold FlipServer.fill1
  rw [hQ]
  simp only []
  split_ifs with h1 h2 h3 h4 h5 h6
  all_goals first
    | exact ⟨_, rfl, rfl⟩
    | exact ⟨_, rfl, hQ⟩
    | (rw [stripEnds_some _ (ha h1 h6)]
       exact ⟨_, rfl, rfl⟩)

theorem FlipServer_fill2_some (g : Globals) (m : Msg) (q : Question)
    (hQ : m.Question = [q])
    (ha : q.Qclass = 1 → q.Qtype = 28 → 2 ≤ g.Config.Answers.Correct.AAAA.length) :
    ∃ m', FlipServer.fill2 g m = some m' ∧ m'.Question = [q] := by
  unfold FlipServer.fill2
  rw [hQ]
  simp only []
  split_ifs with h1 h2 h3 h4 h5 h6
  all_goals first
    | exact ⟨_, rfl, rfl⟩
    | exact ⟨_, rfl, hQ⟩
    | (rw [stripEnds_some _ (ha h1 h6)]
       exact ⟨_, rfl, rfl⟩)

/-! ## Runs whose reply blocks do not panic -/

/-- A run of `ControlServer` whose reply block does not panic. -/
theorem ControlServer_done (g : Globals) (w : ResponseWriter) (req : Msg) (σ : World)
    (l r : String × String) (q : Question) (rest : List Question) (m : Msg)
    (hl : w.LocalAddr = some l) (hr : w.RemoteAddr = some r)
    (hq : req.Question = q :: rest)
    (hf : ControlServer.fill g (replyTo g req q) = some m) :
    ControlServer g w req σ = .done { logged w q 1 σ with sent := σ.sent ++ [m] } := by
  simp [ControlServer, logQuestion_done w req 1 σ l r q rest hl hr hq, Outcome.andThen,
    orPanic, createReply_some g req q rest hq, hf, WriteMsg, logged]

/-- A run of `UnflippedServer` whose reply block does not panic. -/
theorem UnflippedServer_done (g : Globals) (w : ResponseWriter) (req : Msg) (σ : World)
    (l r : String × String) (q : Question) (rest : List Question) (m : Msg)
    (hl : w.LocalAddr = some l) (hr : w.RemoteAddr = some r)
    (hq : req.Question = q :: rest)
    (hf : UnflippedServer.fill g (replyTo g req q) = some m) :
    UnflippedServer g w req σ = .done { logged w q 2 σ with sent := σ.sent ++ [m] } := by
  simp [UnflippedServer, logQuestion_done w req 2 σ l r q rest hl hr hq, Outcome.andThen,
    orPanic, createReply_some g req q rest hq, hf, WriteMsg, logged]

/-- A run of `FlipServer` on a name of fewer than three parts: the first reply is
written, then the rewrite panics. -/
theorem FlipServer_short (g : Globals) (w : ResponseWriter) (req : Msg) (σ : World)
    (l r : String × String) (q : Question) (rest : List Question) (m1 : Msg)
    (hl : w.LocalAddr = some l) (hr : w.RemoteAddr = some r)
    (hq : req.Question = q :: rest)
    (h1 : FlipServer.fill1 g (replyTo g req q) = some m1)
    (hn : (Split q.Name '.').length < 3) :
    FlipServer g w req σ = .panic { logged w q 3 σ with sent := σ.sent ++ [m1] } := by
  have hren : FlipServer.rename g (replyTo g req q) = none := by
    simp [FlipServer.rename, replyTo, hostRewrite_none g.flippedDomains q.Name hn]
  simp [FlipServer, logQuestion_done w req 3 σ l r q rest hl hr hq,
    createReply_some g req q rest hq, Outcome.andThen, orPanic, h1, hren, WriteMsg, logged]

/-- A run of `FlipServer` on a name of at least three parts whose reply blocks do not
panic, with the state it ends in spelled out. -/
theorem FlipServer_long (g : Globals) (w : ResponseWriter) (req : Msg) (σ : World)
    (l r : String × String) (q : Question) (rest : List Question) (m1 m2 : Msg)
    (hl : w.LocalAddr = some l) (hr : w.RemoteAddr = some r)
    (hq : req.Question = q :: rest)
    (h1 : FlipServer.fill1 g (replyTo g req q) = some m1)
    (hn : 3 ≤ (Split q.Name '.').length)
    (h2 : FlipServer.fill2 g { replyTo g req q with
        Question := [{ q with Name := rewrittenName g.flippedDomains q.Name }] } = some m2) :
    FlipServer g w req σ = .done { logged w q 3 σ with sent := σ.sent ++ [m1, m2] } :=
  FlipServer_done g w req σ l r q rest m1 m2 _ hl hr hq h1
    (hostRewrite_some g.flippedDomains q.Name hn) h2

theorem ControlServer_fill_other_class (g : Globals) (m : Msg) (q : Question)
    (rest : List Question) (hQ : m.Question = q :: rest) (hc : q.Qclass ≠ 1) :
    ControlServer.fill g m = some m := by
  simp [ControlServer.fill, hQ, hc]

theorem UnflippedServer_fill_other_class (g : Globals) (m : Msg) (q : Question)
    (rest : List Question) (hQ : m.Question = q :: rest) (hc : q.Qclass ≠ 1) :
    UnflippedServer.fill g m = some m := by
  simp [UnflippedServer.fill, hQ, hc]

theorem FlipServer_fill1_other_class (g : Globals) (m : Msg) (q : Question)
    (rest : List Question) (hQ : m.Question = q :: rest) (hc : q.Qclass ≠ 1) :
    FlipServer.fill1 g m = some m := by
  simp [FlipServer.fill1, hQ, hc]

theorem FlipServer_fill2_other_class (g : Globals) (m : Msg) (q : Question)
    (rest : List Question) (hQ : m.Question = q :: rest) (hc : q.Qclass ≠ 1) :
    FlipServer.fill2 g m = some m := by
  simp [FlipServer.fill2, hQ, hc]

theorem ControlServer_fill_zone (g : Globals) (m : Msg) (name : String) (t : Nat)
    (rest : List Question) (hQ : m.Question = ⟨name, t, 1⟩ :: rest)
    (ht : t = 2 ∨ t = 6 ∨ t = 15) :
    ControlServer.fill g m = some { m with Answer := zoneRecords g name t 604800 } := by
  rcases ht with rfl | rfl | rfl <;> simp [ControlServer.fill, hQ, zoneRecords]

theorem UnflippedServer_fill_zone (g : Globals) (m : Msg) (name : String) (t : Nat)
    (rest : List Question) (hQ : m.Question = ⟨name, t, 1⟩ :: rest)
    (ht : t = 2 ∨ t = 6 ∨ t = 15) :
    UnflippedServer.fill g m = some { m with Answer := zoneRecords g name t 1 } := by
  rcases ht with rfl | rfl | rfl <;> simp [UnflippedServer.fill, hQ, zoneRecords]

theorem FlipServer_fill1_zone (g : Globals) (m : Msg) (name : String) (t : Nat)
    (rest : List Question) (hQ : m.Question = ⟨name, t, 1⟩ :: rest)
    (ht : t = 2 ∨ t = 6 ∨ t = 15) :
    FlipServer.fill1 g m = some { m with Answer := zoneRecords g name t 604800 } := by
  rcases ht with rfl | rfl | rfl <;> simp [FlipServer.fill1, hQ, zoneRecords]

theorem FlipServer_fill2_zone (g : Globals) (m : Msg) (name : String) (t : Nat)
    (rest : List Question) (hQ : m.Question = ⟨name, t, 1⟩ :: rest)
    (ht : t = 2 ∨ t = 6 ∨ t = 15) :
    FlipServer.fill2 g m = some { m with Answer := zoneRecords g name t 604800 } := by
  rcases ht with rfl | rfl | rfl <;> simp [FlipServer.fill2, hQ, zoneRecords]

theorem zoneRecords_ne_nil (g : Globals) (name : String) (t ttl : Nat) :
    zoneRecords g name t ttl ≠ [] := by
  unfold zoneRecords
  split_ifs <;> simp

theorem zoneRecords_ttl (g : Globals) (name : String) (t : Nat) :
    ∀ rr ∈ zoneRecords g name t 604800, rr.Hdr.Ttl = 604800 := by
  unfold zoneRecords
  split_ifs <;> simp [RR.Hdr]

theorem zoneRecords_mxTtl (g : Globals) (name : String) (t ttl : Nat) (ht : t = 2 ∨ t = 6) :
    zoneRecords g name t ttl = zoneRecords g name t 604800 := by
  rcases ht with rfl | rfl <;> simp [zoneRecords]

theorem zoneRecords_withTtl (g : Globals) (name : String) (ttl : Nat) :
    zoneRecords g name 15 ttl = (zoneRecords g name 15 604800).map (RR.withTtl ttl) := by
  simp [zoneRecords, RR.withTtl, RR.mapHdr]

theorem zoneRecords_withName (g : Globals) (name name' : String) (t ttl : Nat) :
    zoneRecords g name' t ttl = (zoneRecords g name t ttl).map (RR.withName name') := by
  unfold zoneRecords
  split_ifs <;> simp [RR.withName, RR.mapHdr]

theorem stripEnds_quoted (a b : Char) (s : String) :
    stripEnds (String.singleton a ++ s ++ String.singleton b) = some s := by
  have hdata : (String.singleton a ++ s ++ String.singleton b).data = a :: (s.data ++ [b]) := by
    simp [String.singleton, String.data_append]
  have hlen : (String.singleton a ++ s ++ String.singleton b).length = s.length + 2 := by
    show (String.singleton a ++ s ++ String.singleton b).data.length = s.data.length + 2
    rw [hdata]
    simp
  rw [stripEnds_some _ (by omega)]
  unfold withoutEnds
  rw [hlen, hdata]
  congr 1
  apply String.ext
  show List.take (s.data.length + 2 - 2) (List.drop 1 (a :: (s.data ++ [b]))) = s.data
  simp

theorem splitChars_head (s : List Char) :
    (splitChars '.' s).headD [] = s.takeWhile (fun c => c ≠ '.') := by
  induction s with
  | nil => simp [splitChars]
  | cons c cs ih =>
    by_cases hc : c = '.'
    · simp [splitChars, hc]
    · simpa [splitChars, hc, List.takeWhile_cons] using ih

theorem Split_head (zone : String) : (Split zone '.').headD "" = leadingLabel zone := by
  unfold Split leadingLabel
  have hne := splitChars_ne_nil '.' zone.data
  have h := splitChars_head zone.data
  cases hsp : splitChars '.' zone.data with
  | nil => exact absurd hsp hne
  | cons p ps =>
    rw [hsp] at h
    simp only [List.headD_cons] at h
    simp [h]

theorem flipLoop_keys (correct : String) (flips : List String) (st : GoMap × ServeMux)
    (k : String) :
    k ∈ (main.flipLoop correct flips st).1.keys ↔ k ∈ st.1.keys ∨ k ∈ flips := by
  induction flips generalizing st with
  | nil => simp [main.flipLoop]
  | cons f fs ih =>
    have hstep : main.flipLoop correct (f :: fs) st =
        main.flipLoop correct fs
          (st.1.set f ((Split correct '.').headD ""), HandleFunc st.2 f Handler.FlipServer) := by
      simp [main.flipLoop]
    rw [hstep, ih]
    simp only [GoMap.keys, GoMap.set, List.map_cons, List.mem_cons]
    tauto

theorem questionLoop_keys (qs : List (String × List String)) (st : GoMap × ServeMux)
    (k : String) :
    k ∈ (main.questionLoop qs st).1.keys ↔ k ∈ st.1.keys ∨ ∃ e ∈ qs, k ∈ e.2 := by
  induction qs generalizing st with
  | nil => simp [main.questionLoop]
  | cons e qs ih =>
    rw [questionLoop_cons, ih, flipLoop_keys]
    simp only [List.mem_cons, exists_eq_or_imp]
    tauto
/-! ## Every written message comes from a reply block -/

theorem rename_eq (g : Globals) (req : Msg) (q : Question) (m2 : Msg)
    (h : FlipServer.rename g (replyTo g req q) = some m2) :
    3 ≤ (Split q.Name '.').length ∧
    m2 = { replyTo g req q with
      Question := [{ q with Name := rewrittenName g.flippedDomains q.Name }] } := by
  by_cases hn : 3 ≤ (Split q.Name '.').length
  · refine ⟨hn, ?_⟩
    simp [FlipServer.rename, replyTo, hostRewrite_some g.flippedDomains q.Name hn] at h
    rw [← h]
    rfl
  · simp [FlipServer.rename, replyTo,
      hostRewrite_none g.flippedDomains q.Name (by omega)] at h

theorem run_written (h : Handler) (g : Globals) (w : ResponseWriter) (req : Msg)
    (σ : World) :
    ∀ m ∈ newReplies σ (h.run g w req σ),
      ∃ q rest, req.Question = q :: rest ∧ Written h g req q m := by
  by_cases hp : ∀ t, logQuestion w req t σ = .panic σ
  · simp [newReplies, run_of_log_panic h g w req σ hp, Outcome.world]
  · have hex : ∃ l r q rest, w.LocalAddr = some l ∧ w.RemoteAddr = some r ∧
        req.Question = q :: rest := by
      by_contra hno
      exact hp (fun t => (logQuestion_cases w req t σ).resolve_right hno)
    obtain ⟨l, r, q, rest, hl, hr, hq⟩ := hex
    intro m hm
    refine ⟨q, rest, hq, ?_⟩
    cases h with
    | UnknownServer =>
      simp [newReplies, Handler.run, UnknownServer_run g w req σ l r q rest hl hr hq,
        Outcome.world] at hm
      simpa [Written] using hm
    | ControlServer =>
      rcases ControlServer_run g w req σ l r q rest hl hr hq with ⟨_, e⟩ | ⟨m', hf, e⟩
      · simp [newReplies, Handler.run, e, Outcome.world, logged] at hm
      · simp [newReplies, Handler.run, e, Outcome.world] at hm
        simpa [Written, hm] using hf
    | UnflippedServer =>
      rcases UnflippedServer_run g w req σ l r q rest hl hr hq with ⟨_, e⟩ | ⟨m', hf, e⟩
      · simp [newReplies, Handler.run, e, Outcome.world, logged] at hm
      · simp [newReplies, Handler.run, e, Outcome.world] at hm
        simpa [Written, hm] using hf
    | FlipServer =>
      rcases FlipServer_run g w req σ l r q rest hl hr hq with ⟨_, e⟩ |
        ⟨m1, hf, ⟨_, e⟩ | ⟨m2', m2, hr2, hf2, e⟩⟩
      · simp [newReplies, Handler.run, e, Outcome.world, logged] at hm
      · simp [newReplies, Handler.run, e, Outcome.world] at hm
        exact Or.inl (hm ▸ hf)
      · simp [newReplies, Handler.run, e, Outcome.world] at hm
        obtain ⟨hn, hm2⟩ := rename_eq g req q m2' hr2
        rcases hm with rfl | rfl
        · exact Or.inl hf
        · exact Or.inr ⟨hn, hm2 ▸ hf2⟩

/-- What the reply block of `ControlServer` does to a fresh reply. -/
theorem ControlServer_fill_spec (g : Globals) (m m' : Msg) (q : Question)
    (rest : List Question) (h : ControlServer.fill g m = some m')
    (hQ : m.Question = q :: rest) (hA : m.Answer = []) (hN : m.Ns = []) :
    m'.Question = m.Question ∧ m'.Extra = m.Extra ∧ m'.Rcode = m.Rcode ∧
    (∀ rr ∈ m'.Answer ++ m'.Ns, rr.Hdr.Name = q.Name ∧ ∀ t ∈ rr.targets, t ∈ serverNames g) ∧
    (m'.Answer ≠ [] ↔ Answered q) ∧ (¬ Answered q → m'.Answer = [] ∧ m'.Ns = []) := by
  unfold ControlServer.fill at h
  rw [hQ] at h
  simp only [] at h
  repeat' split at h
  all_goals
    cases h
    try simp_all [Answered, RR.targets, serverNames, RR.Hdr]
/-- What the reply block of `UnflippedServer` does to a fresh reply. -/
theorem UnflippedServer_fill_spec (g : Globals) (m m' : Msg) (q : Question)
    (rest : List Question) (h : UnflippedServer.fill g m = some m')
    (hQ : m.Question = q :: rest) (hA : m.Answer = []) (hN : m.Ns = []) :
    m'.Question = m.Question ∧ m'.Extra = m.Extra ∧ m'.Rcode = m.Rcode ∧
    (∀ rr ∈ m'.Answer ++ m'.Ns, rr.Hdr.Name = q.Name ∧ ∀ t ∈ rr.targets, t ∈ serverNames g) ∧
    (m'.Answer ≠ [] ↔ Answered q) ∧ (¬ Answered q → m'.Answer = [] ∧ m'.Ns = []) := by
  unfold UnflippedServer.fill at h
  rw [hQ] at h
  simp only [] at h
  repeat' split at h
  all_goals
    cases h
    try simp_all [Answered, RR.targets, serverNames, RR.Hdr]
/-- What the first reply block of `FlipServer` does to a fresh reply. -/
theorem FlipServer_fill1_spec (g : Globals) (m m' : Msg) (q : Question)
    (rest : List Question) (h : FlipServer.fill1 g m = some m')
    (hQ : m.Question = q :: rest) (hA : m.Answer = []) (hN : m.Ns = []) :
    m'.Question = m.Question ∧ m'.Extra = m.Extra ∧ m'.Rcode = m.Rcode ∧
    (∀ rr ∈ m'.Answer ++ m'.Ns, rr.Hdr.Name = q.Name ∧ ∀ t ∈ rr.targets, t ∈ serverNames g) ∧
    (m'.Answer ≠ [] ↔ Answered q) ∧ (¬ Answered q → m'.Answer = [] ∧ m'.Ns = []) := by
  unfold FlipServer.fill1 at h
  rw [hQ] at h
  simp only [] at h
  repeat' split at h
  all_goals
    cases h
    try simp_all [Answered, RR.targets, serverNames, RR.Hdr]
/-- What the second reply block of `FlipServer` does to a fresh reply. -/
theorem FlipServer_fill2_spec (g : Globals) (m m' : Msg) (q : Question)
    (rest : List Question) (h : FlipServer.fill2 g m = some m')
    (hQ : m.Question = q :: rest) (hA : m.Answer = []) (hN : m.Ns = []) :
    m'.Question = m.Question ∧ m'.Extra = m.Extra ∧ m'.Rcode = m.Rcode ∧
    (∀ rr ∈ m'.Answer ++ m'.Ns, rr.Hdr.Name = q.Name ∧ ∀ t ∈ rr.targets, t ∈ serverNames g) ∧
    (m'.Answer ≠ [] ↔ Answered q) ∧ (¬ Answered q → m'.Answer = [] ∧ m'.Ns = []) := by
  unfold FlipServer.fill2 at h
  rw [hQ] at h
  simp only [] at h
  repeat' split at h
  all_goals
    cases h
    try simp_all [Answered, RR.targets, serverNames, RR.Hdr]

/-- What holds of every message a handler writes. -/
theorem written_spec (h : Handler) (g : Globals) (req : Msg) (q : Question) (m : Msg)
    (hw : Written h g req q m) :
    ∃ q', m.Question = [q'] ∧ q'.Qtype = q.Qtype ∧ q'.Qclass = q.Qclass ∧
      (q'.Name = q.Name ∨
        (h = Handler.FlipServer ∧ 3 ≤ (Split q.Name '.').length ∧
          q'.Name = rewrittenName g.flippedDomains q.Name)) ∧
      m.Extra = [RR.TXT ⟨q.Name, TypeTXT, ClassINET, 604800⟩ [disclaimer g]] ∧
      (∀ rr ∈ m.Answer ++ m.Ns,
        rr.Hdr.Name = q'.Name ∧ ∀ t ∈ rr.targets, t ∈ serverNames g) ∧
      (h ≠ Handler.UnknownServer →
        m.Rcode = 0 ∧ (m.Answer ≠ [] ↔ Answered q) ∧
        (¬ Answered q → m.Answer = [] ∧ m.Ns = [])) := by
  cases h with
  | UnknownServer =>
    have hm : m = { replyTo g req q with Rcode := 5 } := hw
    subst hm
    exact ⟨q, rfl, rfl, rfl, Or.inl rfl, rfl, by simp [replyTo], fun hne => absurd rfl hne⟩
  | ControlServer =>
    obtain ⟨hq, he, hr, hrec, hans, hemp⟩ :=
      ControlServer_fill_spec g (replyTo g req q) m q [] hw rfl rfl rfl
    exact ⟨q, hq, rfl, rfl, Or.inl rfl, he, hrec, fun _ => ⟨hr, hans, hemp⟩⟩
  | UnflippedServer =>
    obtain ⟨hq, he, hr, hrec, hans, hemp⟩ :=
      UnflippedServer_fill_spec g (replyTo g req q) m q [] hw rfl rfl rfl
    exact ⟨q, hq, rfl, rfl, Or.inl rfl, he, hrec, fun _ => ⟨hr, hans, hemp⟩⟩
  | FlipServer =>
    rcases hw with hw | ⟨hn, hw⟩
    · obtain ⟨hq, he, hr, hrec, hans, hemp⟩ :=
        FlipServer_fill1_spec g (replyTo g req q) m q [] hw rfl rfl rfl
      exact ⟨q, hq, rfl, rfl, Or.inl rfl, he, hrec, fun _ => ⟨hr, hans, hemp⟩⟩
    · obtain ⟨hq, he, hr, hrec, hans, hemp⟩ :=
        FlipServer_fill2_spec g _ m
          { q with Name := rewrittenName g.flippedDomains q.Name } [] hw rfl rfl rfl
      exact ⟨_, hq, rfl, rfl, Or.inr ⟨rfl, hn, rfl⟩, he, hrec, fun _ => ⟨hr, hans, hemp⟩⟩

theorem mem_Split_empty (c : String) : "" ∈ Split c '.' ↔ [] ∈ splitChars '.' c.data := by
  unfold Split
  constructor
  · intro h
    obtain ⟨a, ha, hmk⟩ := List.mem_map.mp h
    have : a = [] := by
      have := congrArg String.data hmk
      simpa using this
    exact this ▸ ha
  · intro h
    exact List.mem_map.mpr ⟨[], h, rfl⟩

theorem splitChars_last_dot (s : List Char) (h : s.getLast? = some '.') :
    [] ∈ splitChars '.' s := by
  obtain ⟨init, rfl⟩ : ∃ init, s = init ++ ['.'] := by
    rcases List.eq_nil_or_concat s with hs | ⟨init, a, hs⟩
    · simp [hs] at h
    · subst hs
      simp at h
      exact ⟨init, by simp [h]⟩
  rw [splitChars_append_sep]
  simp [splitChars]

theorem serverName_wellFormed (g : Globals) (p : String) (hp1 : '.' ∉ p.data)
    (hp2 : p ≠ "") (hwf : "" ∉ Split g.Config.Control '.') :
    EndsWithOneDot (p ++ "." ++ g.Config.Control ++ ".") ∧
    NoEmptyLabel (p ++ "." ++ g.Config.Control ++ ".") := by
  have hwf' : [] ∉ splitChars '.' g.Config.Control.data :=
    fun h => hwf ((mem_Split_empty _).mpr h)
  have hne : g.Config.Control.data ≠ [] := by
    intro h
    apply hwf'
    rw [h]
    simp [splitChars]
  have hlast : g.Config.Control.data.getLast? ≠ some '.' :=
    fun h => hwf' (splitChars_last_dot _ h)
  constructor
  · have hdata : (p ++ "." ++ g.Config.Control ++ ".").data =
        (p.data ++ '.' :: g.Config.Control.data) ++ ['.'] := by
      simp [String.data_append]
    unfold EndsWithOneDot
    rw [hdata]
    refine ⟨by rw [List.getLast?_append_of_ne_nil _ (by simp)]; rfl, ?_⟩
    rw [List.dropLast_concat]
    have : (p.data ++ '.' :: g.Config.Control.data).getLast? =
        g.Config.Control.data.getLast? := by
      cases hc : g.Config.Control.data with
      | nil => exact absurd hc hne
      | cons a as =>
        rw [List.getLast?_append_of_ne_nil _ (by simp)]
        simp [List.getLast?_cons_cons]
    rw [this]
    exact hlast
  · unfold NoEmptyLabel
    have e : p ++ "." ++ g.Config.Control ++ "." =
        (p ++ "." ++ g.Config.Control) ++ "." ++ "" := by
      apply String.ext
      simp
    rw [e, Split_append_dot, Split_append_dot, Split_label p hp1, Split_empty]
    have : ([p] ++ Split g.Config.Control '.' ++ [""]).dropLast =
        [p] ++ Split g.Config.Control '.' := by
      rw [List.dropLast_concat]
    rw [this]
    simp only [List.singleton_append, List.mem_cons, not_or]
    exact ⟨fun h => hp2 h.symm, hwf⟩

/-- The handler fails on a name of fewer than three parts. -/
theorem FlipServer_fails (g : Globals) (w : ResponseWriter) (req : Msg) (σ : World)
    (q : Question) (rest : List Question) (hq : req.Question = q :: rest)
    (hn : (Split q.Name '.').length < 3) :
    ∃ σ', FlipServer g w req σ = .panic σ' := by
  by_cases hp : ∀ t, logQuestion w req t σ = .panic σ
  · exact ⟨σ, run_of_log_panic Handler.FlipServer g w req σ hp⟩
  · have hex : ∃ l r q rest, w.LocalAddr = some l ∧ w.RemoteAddr = some r ∧
        req.Question = q :: rest := by
      by_contra hno
      exact hp (fun t => (logQuestion_cases w req t σ).resolve_right hno)
    obtain ⟨l, r, q', rest', hl, hr, hq'⟩ := hex
    have hqq : q' = q := by
      rw [hq] at hq'
      exact (List.cons.inj hq').1.symm
    subst hqq
    rcases FlipServer_run g w req σ l r q' rest' hl hr hq' with ⟨_, e⟩ |
      ⟨m1, _, ⟨_, e⟩ | ⟨m2', m2, hr2, _, _⟩⟩
    · exact ⟨_, e⟩
    · exact ⟨_, e⟩
    · have := (rename_eq g req q' m2' hr2).1
      omega

theorem Split_two_labels (x y : String) : 3 ≤ (Split (x ++ "." ++ y ++ ".") '.').length := by
  have e : x ++ "." ++ y ++ "." = (x ++ "." ++ y) ++ "." ++ "" := by
    apply String.ext
    simp
  rw [e, Split_append_dot, Split_append_dot]
  have hx : 1 ≤ (Split x '.').length := List.length_pos.mpr (Split_ne_nil x)
  have hy : 1 ≤ (Split y '.').length := List.length_pos.mpr (Split_ne_nil y)
  have hz : 1 ≤ (Split "" '.').length := List.length_pos.mpr (Split_ne_nil "")
  simp only [List.length_append]
  omega

/-- The second of two replies of `FlipServer` is the one built for the rewritten
name. -/
theorem FlipServer_second (g : Globals) (w : ResponseWriter) (req : Msg) (σ : World)
    (q : Question) (rest : List Question) (m1 m2 : Msg)
    (hq : req.Question = q :: rest)
    (hnew : newReplies σ (FlipServer g w req σ) = [m1, m2]) :
    3 ≤ (Split q.Name '.').length ∧
    FlipServer.fill1 g (replyTo g req q) = some m1 ∧
    FlipServer.fill2 g { replyTo g req q with
      Question := [{ q with Name := rewrittenName g.flippedDomains q.Name }] } = some m2 := by
  by_cases hp : ∀ t, logQuestion w req t σ = .panic σ
  · have e : FlipServer g w req σ = .panic σ :=
      run_of_log_panic Handler.FlipServer g w req σ hp
    simp [newReplies, e, Outcome.world] at hnew
  · have hex : ∃ l r q rest, w.LocalAddr = some l ∧ w.RemoteAddr = some r ∧
        req.Question = q :: rest := by
      by_contra hno
      exact hp (fun t => (logQuestion_cases w req t σ).resolve_right hno)
    obtain ⟨l, r, q', rest', hl, hr, hq'⟩ := hex
    have hqq : q' = q := by
      rw [hq] at hq'
      exact (List.cons.inj hq').1.symm
    subst hqq
    rcases FlipServer_run g w req σ l r q' rest' hl hr hq' with ⟨_, e⟩ |
      ⟨m1', hf, ⟨_, e⟩ | ⟨m2', m2'', hr2, hf2, e⟩⟩
    · simp [newReplies, e, Outcome.world, logged] at hnew
    · simp [newReplies, e, Outcome.world] at hnew
    · simp [newReplies, e, Outcome.world] at hnew
      obtain ⟨hn, hm2⟩ := rename_eq g req q' m2' hr2
      obtain ⟨rfl, rfl⟩ := hnew
      exact ⟨hn, hf, hm2 ▸ hf2⟩

theorem ControlServer_fill_unanswered (g : Globals) (m : Msg) (q : Question)
    (rest : List Question) (hQ : m.Question = q :: rest) (hna : ¬ Answered q) :
    ControlServer.fill g m = some m := by
  unfold ControlServer.fill
  rw [hQ]
  simp only []
  split_ifs <;> first | rfl | (exfalso; apply hna; simp [Answered, *])

theorem UnflippedServer_fill_unanswered (g : Globals) (m : Msg) (q : Question)
    (rest : List Question) (hQ : m.Question = q :: rest) (hna : ¬ Answered q) :
    UnflippedServer.fill g m = some m := by
  unfold UnflippedServer.fill
  rw [hQ]
  simp only []
  split_ifs <;> first | rfl | (exfalso; apply hna; simp [Answered, *])

theorem FlipServer_fill1_unanswered (g : Globals) (m : Msg) (q : Question)
    (rest : List Question) (hQ : m.Question = q :: rest) (hna : ¬ Answered q) :
    FlipServer.fill1 g m = some m := by
  unfold FlipServer.fill1
  rw [hQ]
  simp only []
  split_ifs <;> first | rfl | (exfalso; apply hna; simp [Answered, *])

/-- A run past logging whose reply blocks cannot panic writes at least one reply. -/
theorem run_unanswered_ne_nil (h : Handler) (g : Globals) (w : ResponseWriter) (req : Msg)
    (σ : World) (l r : String × String) (q : Question) (rest : List Question)
    (hl : w.LocalAddr = some l) (hr : w.RemoteAddr = some r)
    (hq : req.Question = q :: rest) (hna : ¬ Answered q) :
    newReplies σ (h.run g w req σ) ≠ [] := by
  cases h with
  | UnknownServer =>
    simp [newReplies, Handler.run, UnknownServer_run g w req σ l r q rest hl hr hq,
      Outcome.world]
  | ControlServer =>
    simp [newReplies, Handler.run, Outcome.world,
      ControlServer_done g w req σ l r q rest _ hl hr hq
        (ControlServer_fill_unanswered g _ q [] rfl hna)]
  | UnflippedServer =>
    simp [newReplies, Handler.run, Outcome.world,
      UnflippedServer_done g w req σ l r q rest _ hl hr hq
        (UnflippedServer_fill_unanswered g _ q [] rfl hna)]
  | FlipServer =>
    have h1 := FlipServer_fill1_unanswered g (replyTo g req q) q [] rfl hna
    rcases FlipServer_run g w req σ l r q rest hl hr hq with ⟨hn, _⟩ |
      ⟨m1, _, ⟨_, e⟩ | ⟨m2', m2, _, _, e⟩⟩
    · rw [h1] at hn
      cases hn
    · simp [newReplies, Handler.run, e, Outcome.world]
    · simp [newReplies, Handler.run, e, Outcome.world]

/-- For a control zone written as non-empty labels separated by dots, the name the
handlers build from a label, `label + "." + Control + "."`, is the fully-qualified form
of the control zone prefixed by that label. -/
theorem Fqdn_prefixed_control (g : Globals) (p : String)
    (hwf : "" ∉ Split g.Config.Control '.') :
    Fqdn (p ++ "." ++ g.Config.Control) = p ++ "." ++ g.Config.Control ++ "." := by
  have hwf' : [] ∉ splitChars '.' g.Config.Control.data :=
    fun h => hwf ((mem_Split_empty _).mpr h)
  have hlast : g.Config.Control.data.getLast? ≠ some '.' :=
    fun h => hwf' (splitChars_last_dot _ h)
  have hne : g.Config.Control.data ≠ [] := by
    intro h
    apply hwf'
    rw [h]
    simp [splitChars]
  have hdata : (p ++ "." ++ g.Config.Control).data.getLast? =
      g.Config.Control.data.getLast? := by
    have : (p ++ "." ++ g.Config.Control).data = (p.data ++ ['.']) ++ g.Config.Control.data := by
      simp [String.data_append]
    rw [this, List.getLast?_append_of_ne_nil _ hne]
  unfold Fqdn
  rw [if_neg (by rw [hdata]; exact hlast)]

/-! ## C1: the Correct-zone handler on a type-A query -/

/-- C1: for every configuration and every query name, `UnflippedServer` answering a
type-A, class-Internet query (on a transport whose addresses split into host and port)
ends normally having written exactly one reply, whose answer section is exactly two A
records: first the configured correct IPv4 value, second the configured flipped IPv4
value, both with TTL 1 and owner name equal to the query name. -/
theorem UnflippedServer_typeA (g : Globals) (w : ResponseWriter) (req : Msg) (σ : World)
    (l r : String × String) (name : String) (rest : List Question)
    (hl : w.LocalAddr = some l) (hr : w.RemoteAddr = some r)
    (hq : req.Question = ⟨name, 1, 1⟩ :: rest) :
    ∃ σ' m, UnflippedServer g w req σ = .done σ' ∧ σ'.sent = σ.sent ++ [m] ∧
      m.Answer = [RR.A ⟨name, TypeA, ClassINET, 1⟩ (ParseIP g.Config.Answers.Correct.A),
                  RR.A ⟨name, TypeA, ClassINET, 1⟩ (ParseIP g.Config.Answers.Flipped.A)] := by
  simp [UnflippedServer, logQuestion_done w req 2 σ l r _ rest hl hr hq,
    createReply_some g req _ rest hq, Outcome.andThen, orPanic, UnflippedServer.fill,
    replyTo, WriteMsg]

/-- The statement of C1 at the sample configuration, for the name `ok.example.`. -/
theorem UnflippedServer_typeA_witness :
    sampleWriter.LocalAddr = some ("192.0.2.1", "53") ∧
    sampleWriter.RemoteAddr = some ("198.51.100.7", "40000") ∧
    (query "ok.example." 1 1).Question = ⟨"ok.example.", 1, 1⟩ :: [] ∧
    ∃ σ' m, UnflippedServer (main sampleConfig).1 sampleWriter (query "ok.example." 1 1)
        sampleWorld = .done σ' ∧ σ'.sent = sampleWorld.sent ++ [m] ∧
      m.Answer = [RR.A ⟨"ok.example.", TypeA, ClassINET, 1⟩
                    (ParseIP (main sampleConfig).1.Config.Answers.Correct.A),
                  RR.A ⟨"ok.example.", TypeA, ClassINET, 1⟩
                    (ParseIP (main sampleConfig).1.Config.Answers.Flipped.A)] :=
  ⟨rfl, rfl, rfl,
    UnflippedServer_typeA (main sampleConfig).1 sampleWriter (query "ok.example." 1 1)
      sampleWorld _ _ "ok.example." [] rfl rfl rfl⟩

/-! ## C2: the Control handler on a type-A query -/

/-- C2, as stated, fails for a control zone given in fully-qualified form: the handler
appends a dot to the configured control zone, so for `ctrl.example.` the targets of the
two NS records are `ns1.ctrl.example..` and `ns2.ctrl.example..`.  These are not the
ns1 and ns2 names of the control zone (`ns1.ctrl.example.`, `ns2.ctrl.example.`): they
end in two dots and contain an empty label. -/
theorem ControlServer_typeA_counterexample :
    EndsWithOneDot (main scenarioConfig).1.Config.Control ∧
    Fqdn ("ns1." ++ (main scenarioConfig).1.Config.Control) = "ns1.ctrl.example." ∧
    Fqdn ("ns2." ++ (main scenarioConfig).1.Config.Control) = "ns2.ctrl.example." ∧
    ∃ σ' m, ControlServer (main scenarioConfig).1 sampleWriter (query "ctrl.example." 1 1)
        sampleWorld = .done σ' ∧ σ'.sent = [m] ∧
      m.Ns = [RR.NS ⟨"ctrl.example.", TypeNS, ClassINET, 604800⟩ "ns1.ctrl.example..",
              RR.NS ⟨"ctrl.example.", TypeNS, ClassINET, 604800⟩ "ns2.ctrl.example.."] ∧
      "ns1.ctrl.example.." ≠ Fqdn ("ns1." ++ (main scenarioConfig).1.Config.Control) ∧
      "ns2.ctrl.example.." ≠ Fqdn ("ns2." ++ (main scenarioConfig).1.Config.Control) ∧
      ¬ EndsWithOneDot "ns1.ctrl.example.." ∧ ¬ NoEmptyLabel "ns1.ctrl.example.." ∧
      ¬ EndsWithOneDot "ns2.ctrl.example.." ∧ ¬ NoEmptyLabel "ns2.ctrl.example.." := by
  refine ⟨by decide, by decide, by decide, _, _, rfl, rfl, ?_, ?_, ?_, ?_, ?_, ?_, ?_⟩ <;>
    decide

/-- C2 (amended): for every configuration whose control zone is written without a final
dot, as non-empty labels separated by dots (such as `ctrl.example`), and every query
name, `ControlServer` answering a type-A, class-Internet query writes exactly one
reply; its answer section is exactly two A records at TTL 604800 (correct IPv4 value
first, flipped IPv4 value second) and its authority section exactly two NS records at
TTL 604800 whose targets are the ns1 and the ns2 name of the control zone, in that
order: the control zone prefixed by the label `ns1` (`ns2`) in fully-qualified form,
`"ns1." + Control + "."` (`"ns2." + Control + "."`), a name that ends with exactly one
dot and contains no empty label. -/
theorem ControlServer_typeA (g : Globals) (w : ResponseWriter) (req : Msg) (σ : World)
    (l r : String × String) (name : String) (rest : List Question)
    (hl : w.LocalAddr = some l) (hr : w.RemoteAddr = some r)
    (hq : req.Question = ⟨name, 1, 1⟩ :: rest)
    (hwf : "" ∉ Split g.Config.Control '.') :
    ∃ σ' m, ControlServer g w req σ = .done σ' ∧ σ'.sent = σ.sent ++ [m] ∧
      m.Answer = [RR.A ⟨name, TypeA, ClassINET, 604800⟩ (ParseIP g.Config.Answers.Correct.A),
                  RR.A ⟨name, TypeA, ClassINET, 604800⟩ (ParseIP g.Config.Answers.Flipped.A)] ∧
      m.Ns = [RR.NS ⟨name, TypeNS, ClassINET, 604800⟩ (Fqdn ("ns1." ++ g.Config.Control)),
              RR.NS ⟨name, TypeNS, ClassINET, 604800⟩ (Fqdn ("ns2." ++ g.Config.Control))] ∧
      Fqdn ("ns1." ++ g.Config.Control) = "ns1." ++ g.Config.Control ++ "." ∧
      Fqdn ("ns2." ++ g.Config.Control) = "ns2." ++ g.Config.Control ++ "." ∧
      EndsWithOneDot (Fqdn ("ns1." ++ g.Config.Control)) ∧
      NoEmptyLabel (Fqdn ("ns1." ++ g.Config.Control)) ∧
      EndsWithOneDot (Fqdn ("ns2." ++ g.Config.Control)) ∧
      NoEmptyLabel (Fqdn ("ns2." ++ g.Config.Control)) := by
  have a1 : ("ns1." : String) = "ns1" ++ "." := by decide
  have a2 : ("ns2." : String) = "ns2" ++ "." := by decide
  have f1 : Fqdn ("ns1." ++ g.Config.Control) = "ns1." ++ g.Config.Control ++ "." := by
    rw [a1]
    exact Fqdn_prefixed_control g "ns1" hwf
  have f2 : Fqdn ("ns2." ++ g.Config.Control) = "ns2." ++ g.Config.Control ++ "." := by
    rw [a2]
    exact Fqdn_prefixed_control g "ns2" hwf
  have w1 := serverName_wellFormed g "ns1" (by decide) (by decide) hwf
  have w2 := serverName_wellFormed g "ns2" (by decide) (by decide) hwf
  rw [← a1] at w1
  rw [← a2] at w2
  have hf : ControlServer.fill g (replyTo g req ⟨name, 1, 1⟩) = some
      { replyTo g req ⟨name, 1, 1⟩ with
        Answer :=
          [RR.A ⟨name, TypeA, ClassINET, 604800⟩ (ParseIP g.Config.Answers.Correct.A),
           RR.A ⟨name, TypeA, ClassINET, 604800⟩ (ParseIP g.Config.Answers.Flipped.A)],
        Ns :=
          [RR.NS ⟨name, TypeNS, ClassINET, 604800⟩ (Fqdn ("ns1." ++ g.Config.Control)),
           RR.NS ⟨name, TypeNS, ClassINET, 604800⟩ (Fqdn ("ns2." ++ g.Config.Control))] } := by
    rw [f1, f2]
    simp [ControlServer.fill, replyTo]
  refine ⟨_, _, ControlServer_done g w req σ l r _ rest _ hl hr hq hf, rfl, rfl, rfl,
    f1, f2, ?_, ?_, ?_, ?_⟩
  · rw [f1]; exact w1.1
  · rw [f1]; exact w1.2
  · rw [f2]; exact w2.1
  · rw [f2]; exact w2.2

/-- The amended C2 at the sample configuration (control zone `ctrl.example`), for the
name `ctrl.example.`: the NS targets are `ns1.ctrl.example.` and `ns2.ctrl.example.`. -/
theorem ControlServer_typeA_witness :
    sampleWriter.LocalAddr = some ("192.0.2.1", "53") ∧
    sampleWriter.RemoteAddr = some ("198.51.100.7", "40000") ∧
    (query "ctrl.example." 1 1).Question = ⟨"ctrl.example.", 1, 1⟩ :: [] ∧
    "" ∉ Split (main sampleConfig).1.Config.Control '.' ∧
    ∃ σ' m, ControlServer (main sampleConfig).1 sampleWriter (query "ctrl.example." 1 1)
        sampleWorld = .done σ' ∧ σ'.sent = sampleWorld.sent ++ [m] ∧
      m.Answer = [RR.A ⟨"ctrl.example.", TypeA, ClassINET, 604800⟩ (ParseIP "10.0.0.2"),
                  RR.A ⟨"ctrl.example.", TypeA, ClassINET, 604800⟩ (ParseIP "10.0.0.1")] ∧
      m.Ns = [RR.NS ⟨"ctrl.example.", TypeNS, ClassINET, 604800⟩ "ns1.ctrl.example.",
              RR.NS ⟨"ctrl.example.", TypeNS, ClassINET, 604800⟩ "ns2.ctrl.example."] ∧
      EndsWithOneDot "ns1.ctrl.example." ∧ NoEmptyLabel "ns1.ctrl.example." ∧
      EndsWithOneDot "ns2.ctrl.example." ∧ NoEmptyLabel "ns2.ctrl.example." := by
  obtain ⟨σ', m, hrun, hsent, hans, hns, _, _, e1, n1, e2, n2⟩ :=
    ControlServer_typeA (main sampleConfig).1 sampleWriter (query "ctrl.example." 1 1)
      sampleWorld _ _ "ctrl.example." [] rfl rfl rfl (by decide)
  exact ⟨rfl, rfl, rfl, by decide, σ', m, hrun, hsent, hans, hns, e1, n1, e2, n2⟩

/-! ## C3: the Flipped handler on a type-AAAA query -/

/-- C3, as stated, fails: with a single-label flip alias (`com`) the query name `com.`
is routed to `FlipServer` and splits into two parts only, so the handler panics in the
name rewrite after writing one reply; with AAAA literals of fewer than two characters
it panics before writing any reply.  In neither case are two replies produced. -/
theorem FlipServer_typeAAAA_counterexample :
    ServeMux.dispatch (main tldConfig).2 "com." = some Handler.FlipServer ∧
    (∃ σ', FlipServer (main tldConfig).1 sampleWriter (query "com." 28 1) sampleWorld
        = .panic σ' ∧ σ'.sent.length = 1) ∧
    ServeMux.dispatch (main bareConfig).2 "www.bad.example." = some Handler.FlipServer ∧
    (∃ σ', FlipServer (main bareConfig).1 sampleWriter (query "www.bad.example." 28 1)
        sampleWorld = .panic σ' ∧ σ'.sent = []) := by
  refine ⟨?_, ⟨_, rfl, ?_⟩, ?_, ⟨_, rfl, ?_⟩⟩ <;> decide

/-- C3 (amended): for every configuration whose two AAAA literals have at least two
characters and every query name that splits on dots into at least three parts,
`FlipServer` on a type-AAAA, class-Internet query writes two replies.  The first has
question name and record owner equal to the unchanged query name and exactly one AAAA
record, at TTL 1, carrying the flipped AAAA literal without its first and last
character; the second has question name and record owner equal to the rewritten name
and exactly one AAAA record, at TTL 1, carrying the correct AAAA literal without its
first and last character. -/
theorem FlipServer_typeAAAA (g : Globals) (w : ResponseWriter) (req : Msg) (σ : World)
    (l r : String × String) (name : String) (rest : List Question)
    (hl : w.LocalAddr = some l) (hr : w.RemoteAddr = some r)
    (hq : req.Question = ⟨name, 28, 1⟩ :: rest)
    (hf : 2 ≤ g.Config.Answers.Flipped.AAAA.length)
    (hc : 2 ≤ g.Config.Answers.Correct.AAAA.length)
    (hn : 3 ≤ (Split name '.').length) :
    ∃ σ' m1 m2 name', FlipServer g w req σ = .done σ' ∧ σ'.sent = σ.sent ++ [m1, m2] ∧
      FlipServer.hostRewrite g.flippedDomains name = some name' ∧
      m1.Question = [⟨name, 28, 1⟩] ∧
      m1.Answer = [RR.AAAA ⟨name, TypeAAAA, ClassINET, 1⟩
                    (ParseIP (withoutEnds g.Config.Answers.Flipped.AAAA))] ∧
      m2.Question = [⟨name', 28, 1⟩] ∧
      m2.Answer = [RR.AAAA ⟨name', TypeAAAA, ClassINET, 1⟩
                    (ParseIP (withoutEnds g.Config.Answers.Correct.AAAA))] := by
  have h1 : FlipServer.fill1 g (replyTo g req ⟨name, 28, 1⟩) = some
      { replyTo g req ⟨name, 28, 1⟩ with
        Answer := [RR.AAAA ⟨name, TypeAAAA, ClassINET, 1⟩
                    (ParseIP (withoutEnds g.Config.Answers.Flipped.AAAA))] } := by
    simp [FlipServer.fill1, replyTo, stripEnds_some _ hf]
  have h2 : FlipServer.fill2 g { replyTo g req ⟨name, 28, 1⟩ with
        Question := [{ (⟨name, 28, 1⟩ : Question) with
          Name := rewrittenName g.flippedDomains name }] } = some
      { replyTo g req ⟨name, 28, 1⟩ with
        Question := [⟨rewrittenName g.flippedDomains name, 28, 1⟩],
        Answer := [RR.AAAA ⟨rewrittenName g.flippedDomains name, TypeAAAA, ClassINET, 1⟩
                    (ParseIP (withoutEnds g.Config.Answers.Correct.AAAA))] } := by
    simp [FlipServer.fill2, replyTo, stripEnds_some _ hc]
  refine ⟨_, _, _, _,
    FlipServer_done g w req σ l r ⟨name, 28, 1⟩ rest _ _ _ hl hr hq h1
      (hostRewrite_some g.flippedDomains name hn) h2, rfl,
    hostRewrite_some g.flippedDomains name hn, rfl, rfl, rfl, rfl⟩

/-- The amended C3 at the sample configuration, for the name `www.bad.example.`. -/
theorem FlipServer_typeAAAA_witness :
    sampleWriter.LocalAddr = some ("192.0.2.1", "53") ∧
    sampleWriter.RemoteAddr = some ("198.51.100.7", "40000") ∧
    (query "www.bad.example." 28 1).Question = ⟨"www.bad.example.", 28, 1⟩ :: [] ∧
    2 ≤ (main sampleConfig).1.Config.Answers.Flipped.AAAA.length ∧
    2 ≤ (main sampleConfig).1.Config.Answers.Correct.AAAA.length ∧
    3 ≤ (Split "www.bad.example." '.').length ∧
    ∃ σ' m1 m2 name', FlipServer (main sampleConfig).1 sampleWriter
        (query "www.bad.example." 28 1) sampleWorld = .done σ' ∧
      σ'.sent = sampleWorld.sent ++ [m1, m2] ∧
      FlipServer.hostRewrite (main sampleConfig).1.flippedDomains "www.bad.example."
        = some name' ∧
      m1.Question = [⟨"www.bad.example.", 28, 1⟩] ∧
      m1.Answer = [RR.AAAA ⟨"www.bad.example.", TypeAAAA, ClassINET, 1⟩
                    (ParseIP (withoutEnds (main sampleConfig).1.Config.Answers.Flipped.AAAA))] ∧
      m2.Question = [⟨name', 28, 1⟩] ∧
      m2.Answer = [RR.AAAA ⟨name', TypeAAAA, ClassINET, 1⟩
                    (ParseIP (withoutEnds (main sampleConfig).1.Config.Answers.Correct.AAAA))] :=
  ⟨rfl, rfl, rfl, by decide, by decide, by decide,
    FlipServer_typeAAAA (main sampleConfig).1 sampleWriter (query "www.bad.example." 28 1)
      sampleWorld _ _ "www.bad.example." [] rfl rfl rfl (by decide) (by decide) (by decide)⟩

/-! ## C4: the name rewrite of the Flipped handler -/

/-- C4, as stated, fails on its own concrete scenario: with the fully-qualified
configuration `questions = {"ok.example.": ["bad.example."]}` the table is keyed by
`bad.example.`, while the rewrite looks up the two parts joined without the final dot,
`bad.example`; the lookup yields the empty string and reply 2 is for the name
`.example.`, not `ok.example.`.  It also fails for an alias of three labels
(`x.bad.example` under `ok.example`: the name `x.bad.example.` becomes `x..example.`)
and for an alias listed under two zones (`bad.example` under `ok.example` and then
under `fine.example`: the name `bad.example.` becomes `fine.example.`). -/
theorem hostRewrite_scenario_counterexample :
    FlipServer.hostRewrite (main scenarioConfig).1.flippedDomains "bad.example."
      = some ".example." ∧
    (∃ σ' m1 m2, FlipServer (main scenarioConfig).1 sampleWriter (query "bad.example." 1 1)
        sampleWorld = .done σ' ∧ σ'.sent = [m1, m2] ∧
      m2.Question = [⟨".example.", 1, 1⟩]) ∧
    FlipServer.hostRewrite (main deepConfig).1.flippedDomains "x.bad.example."
      = some "x..example." ∧
    FlipServer.hostRewrite (main sharedConfig).1.flippedDomains "bad.example."
      = some "fine.example." := by
  refine ⟨by decide, ⟨_, _, _, rfl, rfl, ?_⟩, by decide, by decide⟩
  decide

/-- C4 (amended): let the flip alias `F = l1.l2` consist of exactly two labels and be
written without a final dot, and let the configuration list it under the correct zone
`D` and under no other zone.  With the table built as `main` does, the rewrite of
`FlipServer` applied to a query name made of whole labels `pre`, then `F`, then the
root dot, yields the same name with the label `l1` replaced by the leading label of
`D` (the first part of `D` split on dots); every other character is unchanged. -/
theorem hostRewrite_alias (cfg : ConfigStruct) (D : String) (flips : List String)
    (pre l1 l2 : String)
    (hD : (D, flips) ∈ cfg.Questions) (hF : l1 ++ "." ++ l2 ∈ flips)
    (hu : ∀ e ∈ cfg.Questions, l1 ++ "." ++ l2 ∈ e.2 → e.1 = D)
    (h1 : '.' ∉ l1.data) (h2 : '.' ∉ l2.data)
    (hpre : pre = "" ∨ ∃ p, pre = p ++ ".") :
    FlipServer.hostRewrite (main cfg).1.flippedDomains (pre ++ l1 ++ "." ++ l2 ++ ".") =
      some (pre ++ (Split D '.').headD "" ++ "." ++ l2 ++ ".") := by
  obtain ⟨ps, hps, hjoin⟩ := Split_alias_name pre l1 l2 h1 h2 hpre
  have hlen : 3 ≤ (Split (pre ++ l1 ++ "." ++ l2 ++ ".") '.').length := by
    rw [hps]
    simp
  have htab : (main cfg).1.flippedDomains.get (l1 ++ "." ++ l2) = (Split D '.').headD "" := by
    rw [main_flippedDomains]
    exact questionLoop_get _ _ _ _ (fun e he hFe => by rw [hu e he hFe]) ⟨(D, flips), hD, hF⟩
  rw [hostRewrite_some _ _ hlen, rewrittenName_of_parts _ _ ps l1 l2 "" hps, Join_two, htab,
    hjoin]

/-- The amended C4 at the sample configuration `questions = {"ok.example":
["bad.example"]}`: the query name `bad.example.` is rewritten to `ok.example.`. -/
theorem hostRewrite_alias_witness :
    ("ok.example", ["bad.example"]) ∈ sampleConfig.Questions ∧
    "bad" ++ "." ++ "example" ∈ ["bad.example"] ∧
    (∀ e ∈ sampleConfig.Questions, "bad" ++ "." ++ "example" ∈ e.2 → e.1 = "ok.example") ∧
    '.' ∉ "bad".data ∧ '.' ∉ "example".data ∧
    FlipServer.hostRewrite (main sampleConfig).1.flippedDomains "bad.example."
      = some "ok.example." :=
  ⟨by decide, by decide, by decide, by decide, by decide,
    hostRewrite_alias sampleConfig "ok.example" ["bad.example"] "" "bad" "example"
      (by decide) (by decide) (by decide) (by decide) (by decide) (Or.inl rfl)⟩

/-! ## C5: the Flipped handler on a type-A query -/

/-- C5, as stated, fails: with a single-label flip alias (`com`) the query name `com.`
is routed to `FlipServer`, which writes one reply and then panics in the name rewrite;
no second reply is produced. -/
theorem FlipServer_typeA_counterexample :
    ServeMux.dispatch (main tldConfig).2 "com." = some Handler.FlipServer ∧
    ∃ σ', FlipServer (main tldConfig).1 sampleWriter (query "com." 1 1) sampleWorld
      = .panic σ' ∧ σ'.sent.length = 1 := by
  refine ⟨?_, _, rfl, ?_⟩ <;> decide

/-- C5 (amended): for every configuration and every query name that splits on dots into
at least three parts, `FlipServer` on a type-A, class-Internet query writes two replies,
each containing exactly one A record at TTL 1, and both A records carry the configured
flipped IPv4 value: the second reply, whose owner name is the rewritten name, reuses the
flipped value. -/
theorem FlipServer_typeA (g : Globals) (w : ResponseWriter) (req : Msg) (σ : World)
    (l r : String × String) (name : String) (rest : List Question)
    (hl : w.LocalAddr = some l) (hr : w.RemoteAddr = some r)
    (hq : req.Question = ⟨name, 1, 1⟩ :: rest)
    (hn : 3 ≤ (Split name '.').length) :
    ∃ σ' m1 m2, FlipServer g w req σ = .done σ' ∧ σ'.sent = σ.sent ++ [m1, m2] ∧
      m1.Answer = [RR.A ⟨name, TypeA, ClassINET, 1⟩ (ParseIP g.Config.Answers.Flipped.A)] ∧
      m2.Answer = [RR.A ⟨rewrittenName g.flippedDomains name, TypeA, ClassINET, 1⟩
                    (ParseIP g.Config.Answers.Flipped.A)] := by
  have h1 : FlipServer.fill1 g (replyTo g req ⟨name, 1, 1⟩) = some
      { replyTo g req ⟨name, 1, 1⟩ with
        Answer := [RR.A ⟨name, TypeA, ClassINET, 1⟩ (ParseIP g.Config.Answers.Flipped.A)] } := by
    simp [FlipServer.fill1, replyTo]
  have h2 : FlipServer.fill2 g { replyTo g req ⟨name, 1, 1⟩ with
        Question := [{ (⟨name, 1, 1⟩ : Question) with
          Name := rewrittenName g.flippedDomains name }] } = some
      { replyTo g req ⟨name, 1, 1⟩ with
        Question := [⟨rewrittenName g.flippedDomains name, 1, 1⟩],
        Answer := [RR.A ⟨rewrittenName g.flippedDomains name, TypeA, ClassINET, 1⟩
                    (ParseIP g.Config.Answers.Flipped.A)] } := by
    simp [FlipServer.fill2, replyTo]
  exact ⟨_, _, _,
    FlipServer_done g w req σ l r ⟨name, 1, 1⟩ rest _ _ _ hl hr hq h1
      (hostRewrite_some g.flippedDomains name hn) h2, rfl, rfl, rfl⟩

/-- The amended C5 at the sample configuration, for the name `bad.example.`. -/
theorem FlipServer_typeA_witness :
    sampleWriter.LocalAddr = some ("192.0.2.1", "53") ∧
    sampleWriter.RemoteAddr = some ("198.51.100.7", "40000") ∧
    (query "bad.example." 1 1).Question = ⟨"bad.example.", 1, 1⟩ :: [] ∧
    3 ≤ (Split "bad.example." '.').length ∧
    ∃ σ' m1 m2, FlipServer (main sampleConfig).1 sampleWriter (query "bad.example." 1 1)
        sampleWorld = .done σ' ∧ σ'.sent = sampleWorld.sent ++ [m1, m2] ∧
      m1.Answer = [RR.A ⟨"bad.example.", TypeA, ClassINET, 1⟩
                    (ParseIP (main sampleConfig).1.Config.Answers.Flipped.A)] ∧
      m2.Answer = [RR.A ⟨rewrittenName (main sampleConfig).1.flippedDomains "bad.example.",
                      TypeA, ClassINET, 1⟩
                    (ParseIP (main sampleConfig).1.Config.Answers.Flipped.A)] :=
  ⟨rfl, rfl, rfl, by decide,
    FlipServer_typeA (main sampleConfig).1 sampleWriter (query "bad.example." 1 1)
      sampleWorld _ _ "bad.example." [] rfl rfl rfl (by decide)⟩

/-! ## C6: the disclaimer record -/

/-- C6: every reply written by any of the four handlers (Control, Correct, Flipped reply
1 and reply 2, Unknown), for every request, so for every query type and class, has an
additional section of exactly one record: a TXT record of class Internet with TTL
604800 whose text contains the configured control zone.  A handler that ends normally
has written at least one reply. -/
theorem every_reply_carries_disclaimer (h : Handler) (g : Globals) (w : ResponseWriter)
    (req : Msg) (σ : World) :
    ∃ new, (h.run g w req σ).world.sent = σ.sent ++ new ∧
      (∀ m ∈ new, ∃ owner text a b,
        m.Extra = [RR.TXT ⟨owner, TypeTXT, ClassINET, 604800⟩ [text]] ∧
        text = a ++ g.Config.Control ++ b) ∧
      (∀ σ', h.run g w req σ = .done σ' → new ≠ []) := by
  have hd : ∀ q, HasDisclaimer g (replyTo g req q) := replyTo_HasDisclaimer g req
  have carry : ∀ (m m' : Msg), m'.Extra = m.Extra → HasDisclaimer g m → HasDisclaimer g m' := by
    rintro m m' he ⟨o, t, a, b, hm, ht⟩
    exact ⟨o, t, a, b, by rw [he, hm], ht⟩
  have one : ∀ m : Msg, HasDisclaimer g m → ∀ m' ∈ [m], HasDisclaimer g m' := by
    intro m hm m' hm'
    rw [List.mem_singleton] at hm'
    exact hm' ▸ hm
  by_cases hp : ∀ t, logQuestion w req t σ = .panic σ
  · have e := run_of_log_panic h g w req σ hp
    exact ⟨[], by simp [e, Outcome.world], by simp, by simp [e]⟩
  · have hex : ∃ l r q rest, w.LocalAddr = some l ∧ w.RemoteAddr = some r ∧
        req.Question = q :: rest := by
      by_contra hno
      exact hp (fun t => (logQuestion_cases w req t σ).resolve_right hno)
    obtain ⟨l, r, q, rest, hl, hr, hq⟩ := hex
    cases h with
    | UnknownServer =>
      have e := UnknownServer_run g w req σ l r q rest hl hr hq
      exact ⟨[{ replyTo g req q with Rcode := 5 }],
        by simp [Handler.run, e, Outcome.world], one _ (hd q), by simp⟩
    | ControlServer =>
      rcases ControlServer_run g w req σ l r q rest hl hr hq with ⟨_, e⟩ | ⟨m, hf, e⟩
      · exact ⟨[], by simp [Handler.run, e, Outcome.world, logged], by simp,
          by simp [Handler.run, e]⟩
      · exact ⟨[m], by simp [Handler.run, e, Outcome.world],
          one _ (carry _ _ (ControlServer_fill_Extra g _ _ hf) (hd q)), by simp⟩
    | UnflippedServer =>
      rcases UnflippedServer_run g w req σ l r q rest hl hr hq with ⟨_, e⟩ | ⟨m, hf, e⟩
      · exact ⟨[], by simp [Handler.run, e, Outcome.world, logged], by simp,
          by simp [Handler.run, e]⟩
      · exact ⟨[m], by simp [Handler.run, e, Outcome.world],
          one _ (carry _ _ (UnflippedServer_fill_Extra g _ _ hf) (hd q)), by simp⟩
    | FlipServer =>
      rcases FlipServer_run g w req σ l r q rest hl hr hq with ⟨_, e⟩ |
        ⟨m1, hf, ⟨_, e⟩ | ⟨m2', m2, hr2, hf2, e⟩⟩
      · exact ⟨[], by simp [Handler.run, e, Outcome.world, logged], by simp,
          by simp [Handler.run, e]⟩
      · exact ⟨[m1], by simp [Handler.run, e, Outcome.world],
          one _ (carry _ _ (FlipServer_fill1_Extra g _ _ hf) (hd q)), by simp⟩
      · refine ⟨[m1, m2], by simp [Handler.run, e, Outcome.world], ?_, by simp⟩
        intro m' hm
        simp only [List.mem_cons, List.mem_singleton, List.not_mem_nil, or_false] at hm
        rcases hm with rfl | rfl
        · exact carry _ _ (FlipServer_fill1_Extra g _ _ hf) (hd q)
        · exact carry _ _ (FlipServer_fill2_Extra g _ _ hf2)
            (carry _ _ (FlipServer_rename_Extra g _ _ hr2) (hd q))

/-! ## C7: names outside every configured zone -/

/-- C7: take a query whose name has none of the configured zones (the control zone, the
correct zones, the flip aliases, each in fully-qualified form) as a label-aligned
suffix.  The dispatcher built by `main` routes it to `UnknownServer`, and that handler
writes a single reply with response code Refused (5), an empty answer section and an
empty authority section, whatever the query type and class. -/
theorem unknown_name_refused (cfg : ConfigStruct) (w : ResponseWriter) (req : Msg)
    (σ : World) (l r : String × String) (q : Question) (rest : List Question)
    (hl : w.LocalAddr = some l) (hr : w.RemoteAddr = some r)
    (hq : req.Question = q :: rest)
    (hc : ¬ IsLabelSuffix (Fqdn cfg.Control) q.Name)
    (hz : ∀ e ∈ cfg.Questions, ¬ IsLabelSuffix (Fqdn e.1) q.Name ∧
      ∀ f ∈ e.2, ¬ IsLabelSuffix (Fqdn f) q.Name) :
    ServeMux.dispatch (main cfg).2 q.Name = some Handler.UnknownServer ∧
    ∃ σ' m, Handler.UnknownServer.run (main cfg).1 w req σ = .done σ' ∧
      σ'.sent = σ.sent ++ [m] ∧ m.Rcode = 5 ∧ m.Answer = [] ∧ m.Ns = [] := by
  refine ⟨dispatch_unknown cfg q.Name hc hz, ?_⟩
  simp [Handler.run, UnknownServer, logQuestion_done w req 0 σ l r q rest hl hr hq,
    createReply_some _ req q rest hq, Outcome.andThen, orPanic, replyTo, WriteMsg]

/-- The statement of C7 at the sample configuration, for a query of type 255 and class 3
for the name `www.other.test.`. -/
theorem unknown_name_refused_witness :
    sampleWriter.LocalAddr = some ("192.0.2.1", "53") ∧
    sampleWriter.RemoteAddr = some ("198.51.100.7", "40000") ∧
    (query "www.other.test." 255 3).Question = ⟨"www.other.test.", 255, 3⟩ :: [] ∧
    ¬ IsLabelSuffix (Fqdn sampleConfig.Control) "www.other.test." ∧
    (∀ e ∈ sampleConfig.Questions, ¬ IsLabelSuffix (Fqdn e.1) "www.other.test." ∧
      ∀ f ∈ e.2, ¬ IsLabelSuffix (Fqdn f) "www.other.test.") ∧
    ServeMux.dispatch (main sampleConfig).2 "www.other.test." = some Handler.UnknownServer ∧
    ∃ σ' m, Handler.UnknownServer.run (main sampleConfig).1 sampleWriter
        (query "www.other.test." 255 3) sampleWorld = .done σ' ∧
      σ'.sent = sampleWorld.sent ++ [m] ∧ m.Rcode = 5 ∧ m.Answer = [] ∧ m.Ns = [] :=
  ⟨rfl, rfl, rfl, by decide, by decide,
    unknown_name_refused sampleConfig sampleWriter (query "www.other.test." 255 3)
      sampleWorld _ _ ⟨"www.other.test.", 255, 3⟩ [] rfl rfl rfl (by decide) (by decide)⟩

/-! ## C8: the contact rewrite -/

/-- C8, as stated, fails in its last part: the mailbox of an SOA answer is not the
rewritten contact string itself but that string followed by a dot.  For the contact
`admin@example.com` the rewritten string is `admin.example.com` and the mailbox is
`admin.example.com.`. -/
theorem contact_mailbox_counterexample :
    (main sampleConfig).1.Config.Contact = "admin.example.com" ∧
    ∃ σ' m mbox, ControlServer (main sampleConfig).1 sampleWriter (query "ctrl.example." 6 1)
        sampleWorld = .done σ' ∧ σ'.sent = [m] ∧
      m.Answer = [RR.SOA ⟨"ctrl.example.", TypeSOA, ClassINET, 604800⟩ "ns1.ctrl.example."
                    mbox 1 28800 7200 604800 60] ∧
      mbox = "admin.example.com." ∧ mbox ≠ (main sampleConfig).1.Config.Contact := by
  refine ⟨by decide, _, _, "admin.example.com.", rfl, rfl, ?_, rfl, ?_⟩ <;> decide

/-- C8 (amended): the startup contact rewrite replaces every occurrence of `@` in the
configured contact address by `.` and leaves every other character unchanged, so the
result has the same length and contains no `@`; `admin@example.com` becomes
`admin.example.com`; and the mailbox of the SOA answers (here of `ControlServer` and
of `UnflippedServer`) is that rewritten string followed by a terminating dot. -/
theorem contact_rewrite (parsed : ConfigStruct) (w : ResponseWriter) (req : Msg) (σ : World)
    (l r : String × String) (name : String) (rest : List Question)
    (hl : w.LocalAddr = some l) (hr : w.RemoteAddr = some r)
    (hq : req.Question = ⟨name, 6, 1⟩ :: rest) :
    (main parsed).1.Config.Contact = Replace parsed.Contact '@' '.' ∧
    (Replace parsed.Contact '@' '.').length = parsed.Contact.length ∧
    '@' ∉ (Replace parsed.Contact '@' '.').data ∧
    (∀ (i : Nat) (c : Char), parsed.Contact.data[i]? = some c →
      (Replace parsed.Contact '@' '.').data[i]? = some (if c = '@' then '.' else c)) ∧
    Replace "admin@example.com" '@' '.' = "admin.example.com" ∧
    (∃ σ' m, ControlServer (main parsed).1 w req σ = .done σ' ∧ σ'.sent = σ.sent ++ [m] ∧
      m.Answer = [RR.SOA ⟨name, TypeSOA, ClassINET, 604800⟩ ("ns1." ++ parsed.Control ++ ".")
                    (Replace parsed.Contact '@' '.' ++ ".") 1 28800 7200 604800 60]) ∧
    (∃ σ' m, UnflippedServer (main parsed).1 w req σ = .done σ' ∧ σ'.sent = σ.sent ++ [m] ∧
      m.Answer = [RR.SOA ⟨name, TypeSOA, ClassINET, 604800⟩ ("ns1." ++ parsed.Control ++ ".")
                    (Replace parsed.Contact '@' '.' ++ ".") 1 28800 7200 604800 60]) := by
  have hcontact : (main parsed).1.Config.Contact = Replace parsed.Contact '@' '.' := rfl
  have hcontrol : (main parsed).1.Config.Control = parsed.Control := rfl
  refine ⟨rfl, ?_, ?_, ?_, by decide, ?_, ?_⟩
  · exact List.length_map _ _
  · simp only [Replace, List.mem_map, not_exists, not_and]
    intro c _ hc
    by_cases h : c = '@'
    · rw [if_pos h] at hc
      exact absurd hc (by decide)
    · rw [if_neg h] at hc
      exact h hc
  · intro i c hc
    simp [Replace, List.getElem?_map, hc]
  · simp [ControlServer, logQuestion_done w req 1 σ l r _ rest hl hr hq,
      createReply_some _ req _ rest hq, Outcome.andThen, orPanic, ControlServer.fill,
      replyTo, WriteMsg, hcontact, hcontrol]
  · simp [UnflippedServer, logQuestion_done w req 2 σ l r _ rest hl hr hq,
      createReply_some _ req _ rest hq, Outcome.andThen, orPanic, UnflippedServer.fill,
      replyTo, WriteMsg, hcontact, hcontrol]

/-- The amended C8 at the sample configuration, for an SOA query to the control zone. -/
theorem contact_rewrite_witness :
    sampleWriter.LocalAddr = some ("192.0.2.1", "53") ∧
    sampleWriter.RemoteAddr = some ("198.51.100.7", "40000") ∧
    (query "ctrl.example." 6 1).Question = ⟨"ctrl.example.", 6, 1⟩ :: [] ∧
    (main sampleConfig).1.Config.Contact = Replace sampleConfig.Contact '@' '.' ∧
    ∃ σ' m, ControlServer (main sampleConfig).1 sampleWriter (query "ctrl.example." 6 1)
        sampleWorld = .done σ' ∧ σ'.sent = sampleWorld.sent ++ [m] ∧
      m.Answer = [RR.SOA ⟨"ctrl.example.", TypeSOA, ClassINET, 604800⟩
                    ("ns1." ++ sampleConfig.Control ++ ".")
                    (Replace sampleConfig.Contact '@' '.' ++ ".") 1 28800 7200 604800 60] :=
  ⟨rfl, rfl, rfl,
    (contact_rewrite sampleConfig sampleWriter (query "ctrl.example." 6 1) sampleWorld
      _ _ "ctrl.example." [] rfl rfl rfl).1,
    (contact_rewrite sampleConfig sampleWriter (query "ctrl.example." 6 1) sampleWorld
      _ _ "ctrl.example." [] rfl rfl rfl).2.2.2.2.2.1⟩

/-! ## C9: one log entry per handled query -/

/-- C9: with the log sink a list, every handler invocation (on a transport whose
addresses split, for a request that carries a question) appends exactly one entry, the
Flipped handler too; so after the `N` invocations `calls` the log holds exactly the `N`
new entries `entries`, in order.  The entry of an invocation has classification code 0
for Unknown, 1 for Control, 2 for Correct and 3 for Flipped, and its `QName`, `QType`
and `QClass` are those of the first question of the request as received. -/
theorem one_log_entry_per_query (g : Globals) (calls : List Invocation)
    (entries : List LogEntry) (σ : World)
    (hok : List.Forall₂ (fun c e => ∃ l r q rest,
      c.w.LocalAddr = some l ∧ c.w.RemoteAddr = some r ∧ c.req.Question = q :: rest ∧
      e = { Timestamp := c.now, Type_ := c.handler.code, Destination := l.1, Source := r.1,
            Port := r.2, QName := q.Name, QType := q.Qtype, QClass := q.Qclass })
      calls entries) :
    (handleAll g calls σ).log = σ.log ++ entries ∧ entries.length = calls.length ∧
    Handler.UnknownServer.code = 0 ∧ Handler.ControlServer.code = 1 ∧
    Handler.UnflippedServer.code = 2 ∧ Handler.FlipServer.code = 3 := by
  refine ⟨?_, hok.length_eq.symm, rfl, rfl, rfl, rfl⟩
  induction hok generalizing σ with
  | nil => simp [handleAll]
  | cons hce _ ih =>
    obtain ⟨l, r, q, rest, hl, hr, hq, he⟩ := hce
    rw [handleAll, ih, run_log _ g _ _ _ l r q rest hl hr hq, he]
    simp

/-- The statement of C9 for two invocations, one of `FlipServer` and one of
`UnknownServer`: two entries, with codes 3 and 0, in that order. -/
theorem one_log_entry_per_query_witness :
    (handleAll (main sampleConfig).1
      [⟨Handler.FlipServer, sampleWriter, query "bad.example." 1 1, "2015-01-01T00:00:01"⟩,
       ⟨Handler.UnknownServer, sampleWriter, query "other.test." 16 3, "2015-01-01T00:00:02"⟩]
      sampleWorld).log = sampleWorld.log ++
      [⟨"2015-01-01T00:00:01", 3, "192.0.2.1", "198.51.100.7", "40000", "bad.example.", 1, 1⟩,
       ⟨"2015-01-01T00:00:02", 0, "192.0.2.1", "198.51.100.7", "40000", "other.test.", 16, 3⟩] :=
  (one_log_entry_per_query (main sampleConfig).1
    [⟨Handler.FlipServer, sampleWriter, query "bad.example." 1 1, "2015-01-01T00:00:01"⟩,
     ⟨Handler.UnknownServer, sampleWriter, query "other.test." 16 3, "2015-01-01T00:00:02"⟩]
    [⟨"2015-01-01T00:00:01", 3, "192.0.2.1", "198.51.100.7", "40000", "bad.example.", 1, 1⟩,
     ⟨"2015-01-01T00:00:02", 0, "192.0.2.1", "198.51.100.7", "40000", "other.test.", 16, 3⟩]
    sampleWorld
    (List.Forall₂.cons ⟨_, _, _, _, rfl, rfl, rfl, rfl⟩
      (List.Forall₂.cons ⟨_, _, _, _, rfl, rfl, rfl, rfl⟩ List.Forall₂.nil))).1

/-! ## C10: how many replies are written, and in which order -/

/-- C10, as stated, fails: not every request gets its replies.  With a single-label flip
alias the query `com.` makes `FlipServer` panic in the name rewrite after one reply was
written, and with AAAA literals of fewer than two characters a type-AAAA query makes
`ControlServer` panic before anything is written. -/
theorem replies_written_counterexample :
    ServeMux.dispatch (main tldConfig).2 "com." = some Handler.FlipServer ∧
    (∃ σ', FlipServer (main tldConfig).1 sampleWriter (query "com." 2 1) sampleWorld
        = .panic σ' ∧ σ'.sent.length = 1) ∧
    ServeMux.dispatch (main bareConfig).2 "ctrl.example." = some Handler.ControlServer ∧
    (∃ σ', ControlServer (main bareConfig).1 sampleWriter (query "ctrl.example." 28 1)
        sampleWorld = .panic σ' ∧ σ'.sent = []) := by
  refine ⟨?_, ⟨_, rfl, ?_⟩, ?_, ⟨_, rfl, ?_⟩⟩ <;> decide

/-- C10 (amended): with the transport a list of written messages, consider a request
that carries a question and, when that question is of type AAAA and class Internet, a
configuration whose two AAAA literals have at least two characters.  Then the Unknown,
Control and Correct handlers each write exactly one reply, and the Flipped handler, for
a name that splits on dots into at least three parts, writes exactly two: first the
reply for the unchanged name, then the reply for the rewritten name. -/
theorem replies_written (g : Globals) (w : ResponseWriter) (req : Msg) (σ : World)
    (l r : String × String) (q : Question) (rest : List Question)
    (hl : w.LocalAddr = some l) (hr : w.RemoteAddr = some r)
    (hq : req.Question = q :: rest)
    (ha : q.Qclass = 1 → q.Qtype = 28 →
      2 ≤ g.Config.Answers.Flipped.AAAA.length ∧ 2 ≤ g.Config.Answers.Correct.AAAA.length) :
    (∃ σ' m, UnknownServer g w req σ = .done σ' ∧ σ'.sent = σ.sent ++ [m]) ∧
    (∃ σ' m, ControlServer g w req σ = .done σ' ∧ σ'.sent = σ.sent ++ [m]) ∧
    (∃ σ' m, UnflippedServer g w req σ = .done σ' ∧ σ'.sent = σ.sent ++ [m]) ∧
    (3 ≤ (Split q.Name '.').length →
      ∃ σ' m1 m2, FlipServer g w req σ = .done σ' ∧ σ'.sent = σ.sent ++ [m1, m2] ∧
        m1.Question = [q] ∧
        m2.Question = [{ q with Name := rewrittenName g.flippedDomains q.Name }]) := by
  refine ⟨⟨_, _, UnknownServer_run g w req σ l r q rest hl hr hq, rfl⟩, ?_, ?_, ?_⟩
  · obtain ⟨m, hm, _⟩ := ControlServer_fill_some g (replyTo g req q) q rfl ha
    rcases ControlServer_run g w req σ l r q rest hl hr hq with ⟨hn, _⟩ | ⟨m', _, e⟩
    · rw [hm] at hn
      cases hn
    · exact ⟨_, m', e, rfl⟩
  · obtain ⟨m, hm, _⟩ := UnflippedServer_fill_some g (replyTo g req q) q rfl ha
    rcases UnflippedServer_run g w req σ l r q rest hl hr hq with ⟨hn, _⟩ | ⟨m', _, e⟩
    · rw [hm] at hn
      cases hn
    · exact ⟨_, m', e, rfl⟩
  · intro hn
    obtain ⟨m1, h1, hq1⟩ := FlipServer_fill1_some g (replyTo g req q) q rfl
      (fun hc ht => (ha hc ht).1)
    obtain ⟨m2, h2, hq2⟩ := FlipServer_fill2_some g
      { replyTo g req q with
        Question := [{ q with Name := rewrittenName g.flippedDomains q.Name }] }
      { q with Name := rewrittenName g.flippedDomains q.Name } rfl
      (fun hc ht => (ha hc ht).2)
    exact ⟨_, m1, m2,
      FlipServer_done g w req σ l r q rest m1 m2 _ hl hr hq h1
        (hostRewrite_some g.flippedDomains q.Name hn) h2, rfl, hq1, hq2⟩

/-- The amended C10 at the sample configuration: the two replies of `FlipServer` for
`www.bad.example.`, in order. -/
theorem replies_written_witness :
    sampleWriter.LocalAddr = some ("192.0.2.1", "53") ∧
    sampleWriter.RemoteAddr = some ("198.51.100.7", "40000") ∧
    (query "www.bad.example." 28 1).Question = ⟨"www.bad.example.", 28, 1⟩ :: [] ∧
    2 ≤ (main sampleConfig).1.Config.Answers.Flipped.AAAA.length ∧
    2 ≤ (main sampleConfig).1.Config.Answers.Correct.AAAA.length ∧
    3 ≤ (Split "www.bad.example." '.').length ∧
    ∃ σ' m1 m2, FlipServer (main sampleConfig).1 sampleWriter (query "www.bad.example." 28 1)
        sampleWorld = .done σ' ∧ σ'.sent = sampleWorld.sent ++ [m1, m2] ∧
      m1.Question = [⟨"www.bad.example.", 28, 1⟩] ∧
      m2.Question = [⟨"www.ok.example.", 28, 1⟩] :=
  ⟨rfl, rfl, rfl, by decide, by decide, by decide,
    (replies_written (main sampleConfig).1 sampleWriter (query "www.bad.example." 28 1)
      sampleWorld _ _ ⟨"www.bad.example.", 28, 1⟩ [] rfl rfl rfl
      (fun _ _ => ⟨by decide, by decide⟩)).2.2.2 (by decide)⟩

/-! ## C11: queries of a class other than Internet -/

/-- C11, as stated, fails for the second reply of the Flipped handler: with a
single-label flip alias the query `com.` of class 3 is routed to `FlipServer`, which
writes its first reply and then panics in the name rewrite, so the second reply is
not sent. -/
theorem other_class_counterexample :
    ServeMux.dispatch (main tldConfig).2 "com." = some Handler.FlipServer ∧
    ∃ σ', FlipServer (main tldConfig).1 sampleWriter (query "com." 1 3) sampleWorld
      = .panic σ' ∧ σ'.sent.length = 1 := by
  refine ⟨?_, _, rfl, ?_⟩ <;> decide

/-- C11 (amended): for every query whose class is not Internet, of any type, the
Control and the Correct handler still send their reply, and the Flipped handler still
sends its first reply, and its second whenever the query name splits on dots into at
least three parts (for a shorter name it panics after the first).  Every one of these
replies has an empty answer section, an empty authority section and the success
response code 0. -/
theorem other_class_empty_reply (g : Globals) (w : ResponseWriter) (req : Msg) (σ : World)
    (l r : String × String) (q : Question) (rest : List Question)
    (hl : w.LocalAddr = some l) (hr : w.RemoteAddr = some r)
    (hq : req.Question = q :: rest) (hc : q.Qclass ≠ 1) :
    (∃ σ' m, ControlServer g w req σ = .done σ' ∧ σ'.sent = σ.sent ++ [m] ∧
      m.Answer = [] ∧ m.Ns = [] ∧ m.Rcode = 0) ∧
    (∃ σ' m, UnflippedServer g w req σ = .done σ' ∧ σ'.sent = σ.sent ++ [m] ∧
      m.Answer = [] ∧ m.Ns = [] ∧ m.Rcode = 0) ∧
    (∃ m1, m1.Answer = [] ∧ m1.Ns = [] ∧ m1.Rcode = 0 ∧
      ((Split q.Name '.').length < 3 →
        ∃ σ', FlipServer g w req σ = .panic σ' ∧ σ'.sent = σ.sent ++ [m1]) ∧
      (3 ≤ (Split q.Name '.').length →
        ∃ σ' m2, FlipServer g w req σ = .done σ' ∧ σ'.sent = σ.sent ++ [m1, m2] ∧
          m2.Answer = [] ∧ m2.Ns = [] ∧ m2.Rcode = 0)) := by
  refine ⟨⟨_, _, ControlServer_done g w req σ l r q rest _ hl hr hq
      (ControlServer_fill_other_class g _ q [] rfl hc), rfl, rfl, rfl, rfl⟩,
    ⟨_, _, UnflippedServer_done g w req σ l r q rest _ hl hr hq
      (UnflippedServer_fill_other_class g _ q [] rfl hc), rfl, rfl, rfl, rfl⟩,
    ⟨replyTo g req q, rfl, rfl, rfl, ?_, ?_⟩⟩
  · intro hn
    exact ⟨_, FlipServer_short g w req σ l r q rest _ hl hr hq
      (FlipServer_fill1_other_class g _ q [] rfl hc) hn, rfl⟩
  · intro hn
    exact ⟨_, _, FlipServer_long g w req σ l r q rest _ _ hl hr hq
      (FlipServer_fill1_other_class g _ q [] rfl hc) hn
      (FlipServer_fill2_other_class g _ _ [] rfl hc), rfl, rfl, rfl, rfl⟩

/-- The amended C11 at the sample configuration, for a class-3 query of type A for
`bad.example.`: two replies, both empty. -/
theorem other_class_empty_reply_witness :
    sampleWriter.LocalAddr = some ("192.0.2.1", "53") ∧
    sampleWriter.RemoteAddr = some ("198.51.100.7", "40000") ∧
    (query "bad.example." 1 3).Question = ⟨"bad.example.", 1, 3⟩ :: [] ∧
    (3 : Nat) ≠ 1 ∧ 3 ≤ (Split "bad.example." '.').length ∧
    (∃ σ' m, ControlServer (main sampleConfig).1 sampleWriter (query "bad.example." 1 3)
        sampleWorld = .done σ' ∧ σ'.sent = sampleWorld.sent ++ [m] ∧
      m.Answer = [] ∧ m.Ns = [] ∧ m.Rcode = 0) ∧
    ∃ m1 σ' m2, m1.Answer = [] ∧ m1.Ns = [] ∧ m1.Rcode = 0 ∧
      FlipServer (main sampleConfig).1 sampleWriter (query "bad.example." 1 3) sampleWorld
        = .done σ' ∧ σ'.sent = sampleWorld.sent ++ [m1, m2] ∧
      m2.Answer = [] ∧ m2.Ns = [] ∧ m2.Rcode = 0 := by
  have h := other_class_empty_reply (main sampleConfig).1 sampleWriter
    (query "bad.example." 1 3) sampleWorld _ _ ⟨"bad.example.", 1, 3⟩ [] rfl rfl rfl
    (by decide)
  obtain ⟨hC, _, m1, a1, n1, r1, _, hlong⟩ := h
  obtain ⟨σ', m2, hrun, hsent, a2, n2, r2⟩ := hlong (by decide)
  exact ⟨rfl, rfl, rfl, by decide, by decide, hC, m1, σ', m2, a1, n1, r1, hrun, hsent,
    a2, n2, r2⟩

/-! ## C12: the Control handler on a type-SOA query -/

/-- C12, as stated, fails in one field: the mailbox of the SOA record is not the
rewritten contact address but that address followed by a dot.  For the contact
`admin@example.com` the rewritten address is `admin.example.com` and the mailbox of the
SOA answer for `www.ctrl.example.` is `admin.example.com.`. -/
theorem ControlServer_typeSOA_counterexample :
    ∃ σ' m mbox, ControlServer (main sampleConfig).1 sampleWriter
        (query "www.ctrl.example." 6 1) sampleWorld = .done σ' ∧ σ'.sent = [m] ∧
      m.Answer = [RR.SOA ⟨"www.ctrl.example.", TypeSOA, ClassINET, 604800⟩
                    "ns1.ctrl.example." mbox 1 28800 7200 604800 60] ∧
      mbox = "admin.example.com." ∧
      mbox ≠ Replace sampleConfig.Contact '@' '.' := by
  refine ⟨_, _, "admin.example.com.", rfl, rfl, ?_, rfl, ?_⟩ <;> decide

/-- C12 (amended): for every configuration and query name, `ControlServer` answering a
type-SOA (6), class-Internet query returns exactly one SOA record, at TTL 604800, with
primary name server the ns1 name of the control zone (`"ns1." + Control + "."`),
mailbox the rewritten contact address followed by a dot, serial 1, refresh 28800, retry
7200, expire 604800 and minimum TTL 60, and no authority section. -/
theorem ControlServer_typeSOA (parsed : ConfigStruct) (w : ResponseWriter) (req : Msg)
    (σ : World) (l r : String × String) (name : String) (rest : List Question)
    (hl : w.LocalAddr = some l) (hr : w.RemoteAddr = some r)
    (hq : req.Question = ⟨name, 6, 1⟩ :: rest) :
    ∃ σ' m, ControlServer (main parsed).1 w req σ = .done σ' ∧ σ'.sent = σ.sent ++ [m] ∧
      m.Answer = [RR.SOA ⟨name, TypeSOA, ClassINET, 604800⟩ ("ns1." ++ parsed.Control ++ ".")
                    (Replace parsed.Contact '@' '.' ++ ".") 1 28800 7200 604800 60] ∧
      m.Ns = [] := by
  have hf : ControlServer.fill (main parsed).1 (replyTo (main parsed).1 req ⟨name, 6, 1⟩) =
      some { replyTo (main parsed).1 req ⟨name, 6, 1⟩ with
        Answer := [RR.SOA ⟨name, TypeSOA, ClassINET, 604800⟩
          ("ns1." ++ parsed.Control ++ ".")
          (Replace parsed.Contact '@' '.' ++ ".") 1 28800 7200 604800 60] } := by
    have hcontact : (main parsed).1.Config.Contact = Replace parsed.Contact '@' '.' := rfl
    have hcontrol : (main parsed).1.Config.Control = parsed.Control := rfl
    simp [ControlServer.fill, replyTo, hcontact, hcontrol]
  exact ⟨_, _, ControlServer_done _ w req σ l r _ rest _ hl hr hq hf, rfl, rfl, rfl⟩

/-- The amended C12 at the sample configuration, for the name `ctrl.example.`. -/
theorem ControlServer_typeSOA_witness :
    sampleWriter.LocalAddr = some ("192.0.2.1", "53") ∧
    sampleWriter.RemoteAddr = some ("198.51.100.7", "40000") ∧
    (query "ctrl.example." 6 1).Question = ⟨"ctrl.example.", 6, 1⟩ :: [] ∧
    ∃ σ' m, ControlServer (main sampleConfig).1 sampleWriter (query "ctrl.example." 6 1)
        sampleWorld = .done σ' ∧ σ'.sent = sampleWorld.sent ++ [m] ∧
      m.Answer = [RR.SOA ⟨"ctrl.example.", TypeSOA, ClassINET, 604800⟩
                    ("ns1." ++ sampleConfig.Control ++ ".")
                    (Replace sampleConfig.Contact '@' '.' ++ ".") 1 28800 7200 604800 60] ∧
      m.Ns = [] :=
  ⟨rfl, rfl, rfl,
    ControlServer_typeSOA sampleConfig sampleWriter (query "ctrl.example." 6 1) sampleWorld
      _ _ "ctrl.example." [] rfl rfl rfl⟩

/-! ## C13: the Correct handler against the Control handler on NS, SOA and MX -/

/-- C13: for every configuration and every request of class Internet, the answer
section of `UnflippedServer` for a type-NS or type-SOA query equals the answer section
of `ControlServer` for the same request, whose records have TTL 604800; for a type-MX
query it equals that of `ControlServer` except that the TTL is 1 instead of 604800. -/
theorem UnflippedServer_refines_ControlServer (g : Globals) (w : ResponseWriter) (req : Msg)
    (σ : World) (l r : String × String) (name : String) (t : Nat) (rest : List Question)
    (hl : w.LocalAddr = some l) (hr : w.RemoteAddr = some r)
    (hq : req.Question = ⟨name, t, 1⟩ :: rest)
    (ht : t = 2 ∨ t = 6 ∨ t = 15) :
    ∃ σc mc σu mu, ControlServer g w req σ = .done σc ∧ σc.sent = σ.sent ++ [mc] ∧
      UnflippedServer g w req σ = .done σu ∧ σu.sent = σ.sent ++ [mu] ∧
      mc.Answer ≠ [] ∧ (∀ rr ∈ mc.Answer, rr.Hdr.Ttl = 604800) ∧
      (t ≠ 15 → mu.Answer = mc.Answer) ∧
      (t = 15 → mu.Answer = mc.Answer.map (RR.withTtl 1)) := by
  have hc := ControlServer_fill_zone g (replyTo g req ⟨name, t, 1⟩) name t [] rfl ht
  have hu := UnflippedServer_fill_zone g (replyTo g req ⟨name, t, 1⟩) name t [] rfl ht
  refine ⟨_, _, _, _, ControlServer_done g w req σ l r _ rest _ hl hr hq hc, rfl,
    UnflippedServer_done g w req σ l r _ rest _ hl hr hq hu, rfl,
    zoneRecords_ne_nil g name t 604800, zoneRecords_ttl g name t, ?_, ?_⟩
  · intro h15
    have h26 : t = 2 ∨ t = 6 := by
      rcases ht with h | h | h
      · exact Or.inl h
      · exact Or.inr h
      · exact absurd h h15
    exact zoneRecords_mxTtl g name t 1 h26
  · intro h15
    subst h15
    exact zoneRecords_withTtl g name 1

/-- The statement of C13 at the sample configuration, for an MX query for
`ok.example.`: the Control answer has TTL 604800, the Correct answer TTL 1. -/
theorem UnflippedServer_refines_ControlServer_witness :
    sampleWriter.LocalAddr = some ("192.0.2.1", "53") ∧
    sampleWriter.RemoteAddr = some ("198.51.100.7", "40000") ∧
    (query "ok.example." 15 1).Question = ⟨"ok.example.", 15, 1⟩ :: [] ∧
    ∃ σc mc σu mu, ControlServer (main sampleConfig).1 sampleWriter
        (query "ok.example." 15 1) sampleWorld = .done σc ∧
      σc.sent = sampleWorld.sent ++ [mc] ∧
      UnflippedServer (main sampleConfig).1 sampleWriter (query "ok.example." 15 1)
        sampleWorld = .done σu ∧ σu.sent = sampleWorld.sent ++ [mu] ∧
      mc.Answer ≠ [] ∧ (∀ rr ∈ mc.Answer, rr.Hdr.Ttl = 604800) ∧
      ((15 : Nat) ≠ 15 → mu.Answer = mc.Answer) ∧
      ((15 : Nat) = 15 → mu.Answer = mc.Answer.map (RR.withTtl 1)) :=
  ⟨rfl, rfl, rfl,
    UnflippedServer_refines_ControlServer (main sampleConfig).1 sampleWriter
      (query "ok.example." 15 1) sampleWorld _ _ "ok.example." 15 [] rfl rfl rfl
      (Or.inr (Or.inr rfl))⟩
/-! ## C14: the Flipped handler against the Control handler on NS, SOA and MX -/

/-- C14, as stated, fails for the second reply: with a single-label flip alias the MX
query for `com.` is routed to `FlipServer`, which writes its first reply and then
panics in the name rewrite; there is no second reply. -/
theorem FlipServer_refines_counterexample :
    ServeMux.dispatch (main tldConfig).2 "com." = some Handler.FlipServer ∧
    ∃ σ', FlipServer (main tldConfig).1 sampleWriter (query "com." 15 1) sampleWorld
      = .panic σ' ∧ σ'.sent.length = 1 := by
  refine ⟨?_, _, rfl, ?_⟩ <;> decide

/-- C14 (amended): for every configuration and every request of class Internet with
type NS, SOA or MX, the first reply of `FlipServer` has an answer section equal to that
of `ControlServer` for the same request (so MX at TTL 604800); when the query name
splits on dots into at least three parts there is a second reply, and it has the same
records as the first with only the owner name replaced by the rewritten name (for a
shorter name the handler panics after the first reply). -/
theorem FlipServer_refines_ControlServer (g : Globals) (w : ResponseWriter) (req : Msg)
    (σ : World) (l r : String × String) (name : String) (t : Nat) (rest : List Question)
    (hl : w.LocalAddr = some l) (hr : w.RemoteAddr = some r)
    (hq : req.Question = ⟨name, t, 1⟩ :: rest)
    (ht : t = 2 ∨ t = 6 ∨ t = 15) :
    ∃ σc mc m1, ControlServer g w req σ = .done σc ∧ σc.sent = σ.sent ++ [mc] ∧
      mc.Answer ≠ [] ∧ m1.Answer = mc.Answer ∧
      ((Split name '.').length < 3 →
        ∃ σ', FlipServer g w req σ = .panic σ' ∧ σ'.sent = σ.sent ++ [m1]) ∧
      (3 ≤ (Split name '.').length →
        ∃ σ' m2, FlipServer g w req σ = .done σ' ∧ σ'.sent = σ.sent ++ [m1, m2] ∧
          m2.Answer = m1.Answer.map (RR.withName (rewrittenName g.flippedDomains name))) := by
  have hc := ControlServer_fill_zone g (replyTo g req ⟨name, t, 1⟩) name t [] rfl ht
  have h1 := FlipServer_fill1_zone g (replyTo g req ⟨name, t, 1⟩) name t [] rfl ht
  refine ⟨_, _, _, ControlServer_done g w req σ l r _ rest _ hl hr hq hc, rfl,
    zoneRecords_ne_nil g name t 604800, rfl, ?_, ?_⟩
  · intro hn
    exact ⟨_, FlipServer_short g w req σ l r _ rest _ hl hr hq h1 hn, rfl⟩
  · intro hn
    have h2 := FlipServer_fill2_zone g
      { replyTo g req ⟨name, t, 1⟩ with
        Question := [{ (⟨name, t, 1⟩ : Question) with
          Name := rewrittenName g.flippedDomains name }] }
      (rewrittenName g.flippedDomains name) t [] rfl ht
    exact ⟨_, _, FlipServer_long g w req σ l r _ rest _ _ hl hr hq h1 hn h2, rfl,
      zoneRecords_withName g name _ t 604800⟩

/-- The amended C14 at the sample configuration, for an NS query for `bad.example.`. -/
theorem FlipServer_refines_ControlServer_witness :
    sampleWriter.LocalAddr = some ("192.0.2.1", "53") ∧
    sampleWriter.RemoteAddr = some ("198.51.100.7", "40000") ∧
    (query "bad.example." 2 1).Question = ⟨"bad.example.", 2, 1⟩ :: [] ∧
    3 ≤ (Split "bad.example." '.').length ∧
    ∃ σc mc m1 σ' m2, ControlServer (main sampleConfig).1 sampleWriter
        (query "bad.example." 2 1) sampleWorld = .done σc ∧
      σc.sent = sampleWorld.sent ++ [mc] ∧ mc.Answer ≠ [] ∧ m1.Answer = mc.Answer ∧
      FlipServer (main sampleConfig).1 sampleWriter (query "bad.example." 2 1) sampleWorld
        = .done σ' ∧ σ'.sent = sampleWorld.sent ++ [m1, m2] ∧
      m2.Answer = m1.Answer.map (RR.withName "ok.example.") := by
  obtain ⟨σc, mc, m1, hc, hcs, hne, h1, _, hlong⟩ :=
    FlipServer_refines_ControlServer (main sampleConfig).1 sampleWriter
      (query "bad.example." 2 1) sampleWorld _ _ "bad.example." 2 [] rfl rfl rfl (Or.inl rfl)
  obtain ⟨σ', m2, hrun, hsent, h2⟩ := hlong (by decide)
  exact ⟨rfl, rfl, rfl, by decide, σc, mc, m1, σ', m2, hc, hcs, hne, h1, hrun, hsent, h2⟩

/-! ## C15: the quotes around the AAAA literals -/

/-- C15: when the flipped AAAA literal is `s` between two single characters and the
correct AAAA literal is `t` between two single characters, the text handed to
`net.ParseIP` is exactly `s` for the flipped value and exactly `t` for the correct
value, in `ControlServer`, in `UnflippedServer` and in both replies of `FlipServer`
(whose second reply exists when the name splits into at least three parts). -/
theorem AAAA_literal_unquoted (g : Globals) (w : ResponseWriter) (req : Msg) (σ : World)
    (l r : String × String) (name : String) (rest : List Question)
    (a b c d : Char) (s t : String)
    (hl : w.LocalAddr = some l) (hr : w.RemoteAddr = some r)
    (hq : req.Question = ⟨name, 28, 1⟩ :: rest)
    (hf : g.Config.Answers.Flipped.AAAA = String.singleton a ++ s ++ String.singleton b)
    (hc : g.Config.Answers.Correct.AAAA = String.singleton c ++ t ++ String.singleton d) :
    stripEnds g.Config.Answers.Flipped.AAAA = some s ∧
    stripEnds g.Config.Answers.Correct.AAAA = some t ∧
    (∃ σ' m, ControlServer g w req σ = .done σ' ∧ σ'.sent = σ.sent ++ [m] ∧
      m.Answer = [RR.AAAA ⟨name, TypeAAAA, ClassINET, 604800⟩ (ParseIP t),
                  RR.AAAA ⟨name, TypeAAAA, ClassINET, 604800⟩ (ParseIP s)]) ∧
    (∃ σ' m, UnflippedServer g w req σ = .done σ' ∧ σ'.sent = σ.sent ++ [m] ∧
      m.Answer = [RR.AAAA ⟨name, TypeAAAA, ClassINET, 1⟩ (ParseIP t),
                  RR.AAAA ⟨name, TypeAAAA, ClassINET, 1⟩ (ParseIP s)]) ∧
    (∃ m1, m1.Answer = [RR.AAAA ⟨name, TypeAAAA, ClassINET, 1⟩ (ParseIP s)] ∧
      ((Split name '.').length < 3 →
        ∃ σ', FlipServer g w req σ = .panic σ' ∧ σ'.sent = σ.sent ++ [m1]) ∧
      (3 ≤ (Split name '.').length →
        ∃ σ' m2, FlipServer g w req σ = .done σ' ∧ σ'.sent = σ.sent ++ [m1, m2] ∧
          m2.Answer = [RR.AAAA ⟨rewrittenName g.flippedDomains name, TypeAAAA, ClassINET, 1⟩
                        (ParseIP t)])) := by
  have hsf : stripEnds g.Config.Answers.Flipped.AAAA = some s := by
    rw [hf]
    exact stripEnds_quoted a b s
  have hsc : stripEnds g.Config.Answers.Correct.AAAA = some t := by
    rw [hc]
    exact stripEnds_quoted c d t
  have hC : ControlServer.fill g (replyTo g req ⟨name, 28, 1⟩) = some
      { replyTo g req ⟨name, 28, 1⟩ with
        Answer := [RR.AAAA ⟨name, TypeAAAA, ClassINET, 604800⟩ (ParseIP t),
                   RR.AAAA ⟨name, TypeAAAA, ClassINET, 604800⟩ (ParseIP s)],
        Ns := [RR.NS ⟨name, TypeNS, ClassINET, 604800⟩ ("ns1." ++ g.Config.Control ++ "."),
               RR.NS ⟨name, TypeNS, ClassINET, 604800⟩ ("ns2." ++ g.Config.Control ++ ".")] } := by
    simp [ControlServer.fill, replyTo, hsf, hsc]
  have hU : UnflippedServer.fill g (replyTo g req ⟨name, 28, 1⟩) = some
      { replyTo g req ⟨name, 28, 1⟩ with
        Answer := [RR.AAAA ⟨name, TypeAAAA, ClassINET, 1⟩ (ParseIP t),
                   RR.AAAA ⟨name, TypeAAAA, ClassINET, 1⟩ (ParseIP s)] } := by
    simp [UnflippedServer.fill, replyTo, hsf, hsc]
  have h1 : FlipServer.fill1 g (replyTo g req ⟨name, 28, 1⟩) = some
      { replyTo g req ⟨name, 28, 1⟩ with
        Answer := [RR.AAAA ⟨name, TypeAAAA, ClassINET, 1⟩ (ParseIP s)] } := by
    simp [FlipServer.fill1, replyTo, hsf]
  have h2 : FlipServer.fill2 g { replyTo g req ⟨name, 28, 1⟩ with
        Question := [{ (⟨name, 28, 1⟩ : Question) with
          Name := rewrittenName g.flippedDomains name }] } = some
      { replyTo g req ⟨name, 28, 1⟩ with
        Question := [⟨rewrittenName g.flippedDomains name, 28, 1⟩],
        Answer := [RR.AAAA ⟨rewrittenName g.flippedDomains name, TypeAAAA, ClassINET, 1⟩
                    (ParseIP t)] } := by
    simp [FlipServer.fill2, replyTo, hsc]
  refine ⟨hsf, hsc,
    ⟨_, _, ControlServer_done g w req σ l r _ rest _ hl hr hq hC, rfl, rfl⟩,
    ⟨_, _, UnflippedServer_done g w req σ l r _ rest _ hl hr hq hU, rfl, rfl⟩,
    ⟨{ replyTo g req ⟨name, 28, 1⟩ with
        Answer := [RR.AAAA ⟨name, TypeAAAA, ClassINET, 1⟩ (ParseIP s)] }, rfl, ?_, ?_⟩⟩
  · intro hn
    exact ⟨_, FlipServer_short g w req σ l r _ rest _ hl hr hq h1 hn, rfl⟩
  · intro hn
    exact ⟨_, _, FlipServer_long g w req σ l r _ rest _ _ hl hr hq h1 hn h2, rfl, rfl⟩

/-- The statement of C15 at the sample configuration, whose AAAA literals are
`2001:db8::1` and `2001:db8::2` in double quotes. -/
theorem AAAA_literal_unquoted_witness :
    sampleWriter.LocalAddr = some ("192.0.2.1", "53") ∧
    sampleWriter.RemoteAddr = some ("198.51.100.7", "40000") ∧
    (query "ctrl.example." 28 1).Question = ⟨"ctrl.example.", 28, 1⟩ :: [] ∧
    (main sampleConfig).1.Config.Answers.Flipped.AAAA
      = String.singleton '"' ++ "2001:db8::1" ++ String.singleton '"' ∧
    (main sampleConfig).1.Config.Answers.Correct.AAAA
      = String.singleton '"' ++ "2001:db8::2" ++ String.singleton '"' ∧
    stripEnds (main sampleConfig).1.Config.Answers.Flipped.AAAA = some "2001:db8::1" ∧
    stripEnds (main sampleConfig).1.Config.Answers.Correct.AAAA = some "2001:db8::2" ∧
    ∃ σ' m, ControlServer (main sampleConfig).1 sampleWriter (query "ctrl.example." 28 1)
        sampleWorld = .done σ' ∧ σ'.sent = sampleWorld.sent ++ [m] ∧
      m.Answer = [RR.AAAA ⟨"ctrl.example.", TypeAAAA, ClassINET, 604800⟩
                    (ParseIP "2001:db8::2"),
                  RR.AAAA ⟨"ctrl.example.", TypeAAAA, ClassINET, 604800⟩
                    (ParseIP "2001:db8::1")] := by
  have h := AAAA_literal_unquoted (main sampleConfig).1 sampleWriter
    (query "ctrl.example." 28 1) sampleWorld _ _ "ctrl.example." [] '"' '"' '"' '"'
    "2001:db8::1" "2001:db8::2" rfl rfl rfl (by decide) (by decide)
  exact ⟨rfl, rfl, rfl, by decide, by decide, h.1, h.2.1, h.2.2.1⟩

/-! ## C16: the Flip Correlation Table -/

/-- C16: for every configuration in which each flip alias is listed under one correct
zone only, the table `flippedDomains` built by `main` has as its keys exactly the
configured flip aliases, and maps each alias to the leading label of its correct zone:
the first part of the zone name split on dots, which is the text of the name before
its first dot. -/
theorem flippedDomains_table (cfg : ConfigStruct)
    (hu : ∀ e1 ∈ cfg.Questions, ∀ e2 ∈ cfg.Questions, ∀ F, F ∈ e1.2 → F ∈ e2.2 →
      e1.1 = e2.1) :
    (∀ k, k ∈ (main cfg).1.flippedDomains.keys ↔ ∃ e ∈ cfg.Questions, k ∈ e.2) ∧
    (∀ e ∈ cfg.Questions, ∀ F ∈ e.2,
      (main cfg).1.flippedDomains.get F = leadingLabel e.1) := by
  constructor
  · intro k
    rw [main_flippedDomains, questionLoop_keys]
    simp [GoMap.keys]
  · intro e he F hF
    rw [main_flippedDomains, ← Split_head]
    exact questionLoop_get _ _ _ _
      (fun e' he' hF' => by rw [hu e' he' e he F hF' hF]) ⟨e, he, hF⟩

/-- The statement of C16 at the sample configuration: the only key is `bad.example`,
and it is mapped to `ok`. -/
theorem flippedDomains_table_witness :
    (∀ k, k ∈ (main sampleConfig).1.flippedDomains.keys ↔ k = "bad.example") ∧
    (main sampleConfig).1.flippedDomains.get "bad.example" = "ok" ∧
    leadingLabel "ok.example" = "ok" := by
  have hu : ∀ e1 ∈ sampleConfig.Questions, ∀ e2 ∈ sampleConfig.Questions, ∀ F,
      F ∈ e1.2 → F ∈ e2.2 → e1.1 = e2.1 := by
    intro e1 h1 e2 h2 F _ _
    have a1 : e1 = ("ok.example", ["bad.example"]) := by simpa [sampleConfig] using h1
    have a2 : e2 = ("ok.example", ["bad.example"]) := by simpa [sampleConfig] using h2
    rw [a1, a2]
  have h := flippedDomains_table sampleConfig hu
  refine ⟨fun k => ?_, ?_, by decide⟩
  · rw [h.1 k]
    simp [sampleConfig]
  · exact h.2 ("ok.example", ["bad.example"]) (by decide) "bad.example" (by decide)

/-! ## C17: the server names built from the control zone -/

/-- C17, as stated, fails: for the fully-qualified control zone `ctrl.example.` the
handlers still append a dot, so the NS answer of `ControlServer` names
`ns1.ctrl.example..` and `ns2.ctrl.example..`; these are not the control zone prefixed
by one label, they end with two dots and contain an empty label. -/
theorem server_names_counterexample :
    EndsWithOneDot (main scenarioConfig).1.Config.Control ∧
    ∃ σ' m, ControlServer (main scenarioConfig).1 sampleWriter (query "ctrl.example." 2 1)
        sampleWorld = .done σ' ∧ σ'.sent = [m] ∧
      m.Answer = [RR.NS ⟨"ctrl.example.", TypeNS, ClassINET, 604800⟩ "ns1.ctrl.example..",
                  RR.NS ⟨"ctrl.example.", TypeNS, ClassINET, 604800⟩ "ns2.ctrl.example.."] ∧
      "ns1.ctrl.example.." ≠ "ns1." ++ (main scenarioConfig).1.Config.Control ∧
      ¬ EndsWithOneDot "ns1.ctrl.example.." ∧ ¬ NoEmptyLabel "ns1.ctrl.example.." := by
  refine ⟨by decide, _, _, rfl, rfl, ?_, ?_, ?_, ?_⟩ <;> decide

/-- C17 (amended): for every configuration whose control zone is written without a
final dot, as non-empty labels separated by dots (such as `ctrl.example`), every
name-server, mail-exchanger and SOA primary name in the answer and authority sections
of every reply of every handler is the control zone prefixed by one label and followed
by a dot (`"ns1." + Control + "."`, `"ns2." + Control + "."` or `"mx." + Control +
"."`); it therefore ends with exactly one dot and contains no empty label. -/
theorem server_names_wellFormed (g : Globals) (h : Handler) (w : ResponseWriter)
    (req : Msg) (σ : World) (hwf : "" ∉ Split g.Config.Control '.') :
    ∀ m ∈ newReplies σ (h.run g w req σ), ∀ rr ∈ m.Answer ++ m.Ns, ∀ t ∈ rr.targets,
      (t = "ns1." ++ g.Config.Control ++ "." ∨ t = "ns2." ++ g.Config.Control ++ "." ∨
        t = "mx." ++ g.Config.Control ++ ".") ∧
      EndsWithOneDot t ∧ NoEmptyLabel t := by
  intro m hm rr hrr t ht
  obtain ⟨q, rest, _, hw⟩ := run_written h g w req σ m hm
  obtain ⟨q', _, _, _, _, _, hrec, _⟩ := written_spec h g req q m hw
  have hmem : t ∈ serverNames g := (hrec rr hrr).2 t ht
  have e1 : "ns1." ++ g.Config.Control ++ "." = "ns1" ++ "." ++ g.Config.Control ++ "." := by
    apply String.ext
    simp
  have e2 : "ns2." ++ g.Config.Control ++ "." = "ns2" ++ "." ++ g.Config.Control ++ "." := by
    apply String.ext
    simp
  have e3 : "mx." ++ g.Config.Control ++ "." = "mx" ++ "." ++ g.Config.Control ++ "." := by
    apply String.ext
    simp
  simp only [serverNames, List.mem_cons, List.mem_singleton, List.not_mem_nil, or_false]
    at hmem
  rcases hmem with rfl | rfl | rfl
  · exact ⟨Or.inl rfl, e1 ▸ serverName_wellFormed g "ns1" (by decide) (by decide) hwf⟩
  · exact ⟨Or.inr (Or.inl rfl), e2 ▸ serverName_wellFormed g "ns2" (by decide) (by decide) hwf⟩
  · exact ⟨Or.inr (Or.inr rfl), e3 ▸ serverName_wellFormed g "mx" (by decide) (by decide) hwf⟩

/-- The amended C17 at the sample configuration (control zone `ctrl.example`): the NS
answer of `ControlServer` names `ns1.ctrl.example.` and `ns2.ctrl.example.`. -/
theorem server_names_wellFormed_witness :
    "" ∉ Split (main sampleConfig).1.Config.Control '.' ∧
    (newReplies sampleWorld (Handler.ControlServer.run (main sampleConfig).1 sampleWriter
        (query "ctrl.example." 2 1) sampleWorld)).map
      (fun m => (m.Answer ++ m.Ns).map RR.targets)
      = [[["ns1.ctrl.example."], ["ns2.ctrl.example."]]] ∧
    ∀ m ∈ newReplies sampleWorld (Handler.ControlServer.run (main sampleConfig).1
        sampleWriter (query "ctrl.example." 2 1) sampleWorld),
      ∀ rr ∈ m.Answer ++ m.Ns, ∀ t ∈ rr.targets,
        (t = "ns1." ++ (main sampleConfig).1.Config.Control ++ "." ∨
          t = "ns2." ++ (main sampleConfig).1.Config.Control ++ "." ∨
          t = "mx." ++ (main sampleConfig).1.Config.Control ++ ".") ∧
        EndsWithOneDot t ∧ NoEmptyLabel t :=
  ⟨by decide, by decide,
    server_names_wellFormed (main sampleConfig).1 Handler.ControlServer sampleWriter
      (query "ctrl.example." 2 1) sampleWorld (by decide)⟩

/-! ## C18: the bounds of the name rewrite -/

/-- C18: a query name of at least two labels followed by the root dot splits on dots
into at least three parts; for every name that splits into at least three parts the
index `len-3` and the slice `[len-3, len-1)` are in range, so the slice and the index
assignment of the rewrite succeed and the rewrite yields a name; for a name that splits
into fewer than three parts the bounds are out of range, the rewrite fails and
`FlipServer` ends in a panic. -/
theorem hostRewrite_bounds (fd : GoMap) (name : String) :
    (∀ x y : String, 3 ≤ (Split (x ++ "." ++ y ++ ".") '.').length) ∧
    (3 ≤ (Split name '.').length →
      (0 : Int) ≤ ((Split name '.').length : Int) - 3 ∧
      ((Split name '.').length : Int) - 3 < (Split name '.').length ∧
      (sliceParts (Split name '.') (((Split name '.').length : Int) - 3)
        (((Split name '.').length : Int) - 1)).isSome ∧
      (∀ v, (setPart (Split name '.') (((Split name '.').length : Int) - 3) v).isSome) ∧
      FlipServer.hostRewrite fd name = some (rewrittenName fd name)) ∧
    ((Split name '.').length < 3 →
      ((Split name '.').length : Int) - 3 < 0 ∧
      sliceParts (Split name '.') (((Split name '.').length : Int) - 3)
        (((Split name '.').length : Int) - 1) = none ∧
      FlipServer.hostRewrite fd name = none ∧
      ∀ (g : Globals) (w : ResponseWriter) (req : Msg) (σ : World) (t c : Nat)
        (rest : List Question), req.Question = ⟨name, t, c⟩ :: rest →
        ∃ σ', FlipServer g w req σ = .panic σ') := by
  refine ⟨Split_two_labels, fun hn => ⟨by omega, by omega, ?_, fun v => ?_,
    hostRewrite_some fd name hn⟩, fun hn => ⟨by omega, ?_, hostRewrite_none fd name hn,
    fun g w req σ t c rest hq => FlipServer_fails g w req σ _ rest hq hn⟩⟩
  · unfold sliceParts
    rw [if_pos (by omega)]
    rfl
  · unfold setPart
    rw [if_pos (by omega)]
    rfl
  · unfold sliceParts
    rw [if_neg (by omega)]

/-- The statement of C18 at concrete names: `www.bad.example.` is rewritten, while for
the single-label name `com.` and for the root the rewrite fails and the handler
panics. -/
theorem hostRewrite_bounds_witness :
    3 ≤ (Split "www.bad.example." '.').length ∧
    FlipServer.hostRewrite (main sampleConfig).1.flippedDomains "www.bad.example."
      = some "www.ok.example." ∧
    (Split "com." '.').length < 3 ∧ (Split "." '.').length < 3 ∧
    FlipServer.hostRewrite (main sampleConfig).1.flippedDomains "com." = none ∧
    FlipServer.hostRewrite (main sampleConfig).1.flippedDomains "." = none ∧
    ∃ σ', FlipServer (main sampleConfig).1 sampleWriter (query "com." 1 1) sampleWorld
      = .panic σ' :=
  ⟨by decide,
    ((hostRewrite_bounds (main sampleConfig).1.flippedDomains "www.bad.example.").2.1
      (by decide)).2.2.2.2,
    by decide, by decide,
    ((hostRewrite_bounds (main sampleConfig).1.flippedDomains "com.").2.2 (by decide)).2.2.1,
    ((hostRewrite_bounds (main sampleConfig).1.flippedDomains ".").2.2 (by decide)).2.2.1,
    ((hostRewrite_bounds (main sampleConfig).1.flippedDomains "com.").2.2 (by decide)).2.2.2
      (main sampleConfig).1 sampleWriter (query "com." 1 1) sampleWorld 1 1 [] rfl⟩

/-! ## C19: the owner name of the disclaimer -/

/-- C19: in every reply of every handler the owner name of the disclaimer TXT record is
the name of the query as received.  Consequently, in the second of the two replies of
`FlipServer` the question name and the owner names of the answer records are the
rewritten name, and whenever the rewrite changes the name the owner name of the
disclaimer differs from that question name and from the owner name of every answer
record. -/
theorem disclaimer_owner (g : Globals) (w : ResponseWriter) (req : Msg) (σ : World)
    (q : Question) (rest : List Question) (hq : req.Question = q :: rest) :
    (∀ h : Handler, ∀ m ∈ newReplies σ (h.run g w req σ),
      m.Extra = [RR.TXT ⟨q.Name, TypeTXT, ClassINET, 604800⟩ [disclaimer g]]) ∧
    (∀ m1 m2, newReplies σ (FlipServer g w req σ) = [m1, m2] →
      m2.Question = [{ q with Name := rewrittenName g.flippedDomains q.Name }] ∧
      (∀ rr ∈ m2.Answer, rr.Hdr.Name = rewrittenName g.flippedDomains q.Name) ∧
      (rewrittenName g.flippedDomains q.Name ≠ q.Name →
        ∀ x ∈ m2.Extra, (∀ q2 ∈ m2.Question, x.Hdr.Name ≠ q2.Name) ∧
          ∀ rr ∈ m2.Answer, x.Hdr.Name ≠ rr.Hdr.Name)) := by
  constructor
  · intro h m hm
    obtain ⟨q', rest', hq', hw⟩ := run_written h g w req σ m hm
    have hqq : q' = q := by
      rw [hq] at hq'
      exact (List.cons.inj hq').1.symm
    subst hqq
    obtain ⟨_, _, _, _, _, he, _⟩ := written_spec h g req q' m hw
    exact he
  · intro m1 m2 hnew
    obtain ⟨_, _, h2⟩ := FlipServer_second g w req σ q rest m1 m2 hq hnew
    obtain ⟨hQ, hE, _, hrec, _, _⟩ := FlipServer_fill2_spec g _ m2
      { q with Name := rewrittenName g.flippedDomains q.Name } [] h2 rfl rfl rfl
    have hown : ∀ rr ∈ m2.Answer, rr.Hdr.Name = rewrittenName g.flippedDomains q.Name :=
      fun rr hrr => (hrec rr (List.mem_append_left _ hrr)).1
    refine ⟨hQ, hown, ?_⟩
    intro hne x hx
    have hxn : x.Hdr.Name = q.Name := by
      rw [hE] at hx
      simp only [replyTo, List.mem_singleton] at hx
      rw [hx]
      rfl
    refine ⟨fun q2 hq2 => ?_, fun rr hrr => ?_⟩
    · rw [hQ, List.mem_singleton] at hq2
      rw [hxn, hq2]
      exact fun e => hne e.symm
    · rw [hxn, hown rr hrr]
      exact fun e => hne e.symm

/-- The statement of C19 at the sample configuration: in the second reply of
`FlipServer` for `bad.example.` the question and the A record are for `ok.example.`
while the disclaimer is owned by `bad.example.`. -/
theorem disclaimer_owner_witness :
    (query "bad.example." 1 1).Question = ⟨"bad.example.", 1, 1⟩ :: [] ∧
    ∃ m1 m2, newReplies sampleWorld (FlipServer (main sampleConfig).1 sampleWriter
        (query "bad.example." 1 1) sampleWorld) = [m1, m2] ∧
      m2.Extra = [RR.TXT ⟨"bad.example.", TypeTXT, ClassINET, 604800⟩
                    [disclaimer (main sampleConfig).1]] ∧
      m2.Question = [⟨"ok.example.", 1, 1⟩] ∧
      (∀ rr ∈ m2.Answer, rr.Hdr.Name = "ok.example.") ∧
      ∀ x ∈ m2.Extra, (∀ q2 ∈ m2.Question, x.Hdr.Name ≠ q2.Name) ∧
        ∀ rr ∈ m2.Answer, x.Hdr.Name ≠ rr.Hdr.Name := by
  have h := disclaimer_owner (main sampleConfig).1 sampleWriter (query "bad.example." 1 1)
    sampleWorld ⟨"bad.example.", 1, 1⟩ [] rfl
  have hnew : ∃ m1 m2, newReplies sampleWorld (FlipServer (main sampleConfig).1 sampleWriter
      (query "bad.example." 1 1) sampleWorld) = [m1, m2] := ⟨_, _, rfl⟩
  obtain ⟨m1, m2, hnew⟩ := hnew
  obtain ⟨hQ, hown, hdiff⟩ := h.2 m1 m2 hnew
  have hE := h.1 Handler.FlipServer m2 (by
    show m2 ∈ newReplies sampleWorld (FlipServer (main sampleConfig).1 sampleWriter
      (query "bad.example." 1 1) sampleWorld)
    rw [hnew]
    simp)
  exact ⟨rfl, m1, m2, hnew, hE, hQ, hown, hdiff (by decide)⟩
/-! ## C20: query types the handlers do not answer -/

/-- C20: let the handler be `ControlServer`, `UnflippedServer` or `FlipServer`.  For a
class-Internet query whose type is none of A (1), NS (2), SOA (6), MX (15) and AAAA
(28), the handler writes at least one reply, and every reply it writes has an empty
answer section, an empty authority section and the response code 0, and carries only
the disclaimer record.  For every query, the answer section of a reply of these
handlers is non-empty exactly when the class is Internet and the type is one of those
five. -/
theorem unanswered_types (h : Handler) (g : Globals) (w : ResponseWriter) (req : Msg)
    (σ : World) (l r : String × String) (q : Question) (rest : List Question)
    (hh : h = Handler.ControlServer ∨ h = Handler.UnflippedServer ∨ h = Handler.FlipServer)
    (hl : w.LocalAddr = some l) (hr : w.RemoteAddr = some r)
    (hq : req.Question = q :: rest) :
    (q.Qclass = 1 →
      q.Qtype ≠ 1 ∧ q.Qtype ≠ 2 ∧ q.Qtype ≠ 6 ∧ q.Qtype ≠ 15 ∧ q.Qtype ≠ 28 →
      newReplies σ (h.run g w req σ) ≠ [] ∧
      ∀ m ∈ newReplies σ (h.run g w req σ),
        m.Answer = [] ∧ m.Ns = [] ∧ m.Rcode = 0 ∧
        m.Extra = [RR.TXT ⟨q.Name, TypeTXT, ClassINET, 604800⟩ [disclaimer g]]) ∧
    (∀ m ∈ newReplies σ (h.run g w req σ),
      m.Answer ≠ [] ↔
        (q.Qclass = 1 ∧
          (q.Qtype = 1 ∨ q.Qtype = 2 ∨ q.Qtype = 6 ∨ q.Qtype = 15 ∨ q.Qtype = 28))) := by
  have hne : h ≠ Handler.UnknownServer := by
    rcases hh with rfl | rfl | rfl <;> decide
  have key : ∀ m ∈ newReplies σ (h.run g w req σ),
      m.Extra = [RR.TXT ⟨q.Name, TypeTXT, ClassINET, 604800⟩ [disclaimer g]] ∧
      m.Rcode = 0 ∧ (m.Answer ≠ [] ↔ Answered q) ∧
      (¬ Answered q → m.Answer = [] ∧ m.Ns = []) := by
    intro m hm
    obtain ⟨q', rest', hq', hw⟩ := run_written h g w req σ m hm
    have hqq : q' = q := by
      rw [hq] at hq'
      exact (List.cons.inj hq').1.symm
    subst hqq
    obtain ⟨_, _, _, _, _, he, _, hrest⟩ := written_spec h g req q' m hw
    exact ⟨he, (hrest hne).1, (hrest hne).2.1, (hrest hne).2.2⟩
  constructor
  · intro _ ht
    have hna : ¬ Answered q := by
      rintro ⟨_, h1 | h2 | h6 | h15 | h28⟩
      · exact ht.1 h1
      · exact ht.2.1 h2
      · exact ht.2.2.1 h6
      · exact ht.2.2.2.1 h15
      · exact ht.2.2.2.2 h28
    refine ⟨run_unanswered_ne_nil h g w req σ l r q rest hl hr hq hna, fun m hm => ?_⟩
    obtain ⟨he, hrc, _, hemp⟩ := key m hm
    exact ⟨(hemp hna).1, (hemp hna).2, hrc, he⟩
  · intro m hm
    exact (key m hm).2.2.1

/-- The statement of C20 at the sample configuration, for a class-Internet query of
type TXT (16) to `FlipServer`: two replies, both empty. -/
theorem unanswered_types_witness :
    sampleWriter.LocalAddr = some ("192.0.2.1", "53") ∧
    sampleWriter.RemoteAddr = some ("198.51.100.7", "40000") ∧
    (query "bad.example." 16 1).Question = ⟨"bad.example.", 16, 1⟩ :: [] ∧
    (newReplies sampleWorld (Handler.FlipServer.run (main sampleConfig).1 sampleWriter
      (query "bad.example." 16 1) sampleWorld)).length = 2 ∧
    ∀ m ∈ newReplies sampleWorld (Handler.FlipServer.run (main sampleConfig).1 sampleWriter
        (query "bad.example." 16 1) sampleWorld),
      m.Answer = [] ∧ m.Ns = [] ∧ m.Rcode = 0 ∧
      m.Extra = [RR.TXT ⟨"bad.example.", TypeTXT, ClassINET, 604800⟩
                  [disclaimer (main sampleConfig).1]] :=
  ⟨rfl, rfl, rfl, by decide,
    ((unanswered_types Handler.FlipServer (main sampleConfig).1 sampleWriter
      (query "bad.example." 16 1) sampleWorld _ _ ⟨"bad.example.", 16, 1⟩ []
      (Or.inr (Or.inr rfl)) rfl rfl rfl).1 rfl (by decide)).2⟩

end BfDns
